import Mathlib

/-!
# Verification of the Toronto open-data dashboard's computational layer

Shallow embedding of the data-quality, cost-distribution, ward-analysis and
time-series calculations of the repository (`src/lib/supabase.ts`'s
data-readiness API and `pages/api/toronto-dashboard.ts`).

Modelling conventions:
* Calendar dates are integer day numbers (`Option Int`); the JavaScript code
  compares `Date` objects, which is numeric comparison of timestamps, and all
  day arithmetic (`Math.floor(ms / 86400000)`) is exact at day granularity.
  The date-window bounds `fiftyYearsPast` / `oneYearFuture` and the clock
  `currentDate` are passed as explicit parameters `lo`, `hi`, `now`.
* Monetary amounts and scores are rationals (an idealisation of IEEE doubles).
* `null`/`undefined` fields are `none`; JavaScript string truthiness
  (`if (s.field)`) is `strTruthy` (empty string and `null` are falsy), while
  `!== null` checks are `Option.isSome`.
* `Array.prototype.sort` is stable (ES2019), modelled by `List.insertionSort`
  with the non-strict comparator relation.
* String-building outputs (`details`, `label`, issue/recommendation texts with
  interpolated numbers) are omitted from the result structures except where a
  claim depends on them (`criticalIssues` of the empty readiness metrics).
-/

/-- A service record as read from the `service_results` table. -/
structure ServiceRecord where
  id : Nat := 0
  start_date : Option Int := none
  end_date : Option Int := none
  service_division_owner : Option String := none
  ward : Option Int := none
  estimated_cost : Option ℚ := none
  service_result : Option String := none
  notes : Option String := none
deriving Repr, DecidableEq, Inhabited

/-- JavaScript truthiness of an optional string: `null` and `""` are falsy. -/
def strTruthy : Option String → Bool
  | none => false
  | some s => !(s == "")

/-! ## Quality dimension calculators (`src/lib/supabase.ts`, data-readiness API) -/

/-- `service.ward !== null && (service.ward < 1 || service.ward > 25)`. -/
def wardOutOfRange (s : ServiceRecord) : Bool :=
  match s.ward with
  | some w => decide (w < 1) || decide (w > 25)
  | none => false

/-- `startDate > oneYearFuture || startDate < fiftyYearsPast` (when present). -/
def startDateOutOfWindow (lo hi : Int) (s : ServiceRecord) : Bool :=
  match s.start_date with
  | some d => decide (d > hi) || decide (d < lo)
  | none => false

/-- `endDate > oneYearFuture || endDate < fiftyYearsPast` (when present). -/
def endDateOutOfWindow (lo hi : Int) (s : ServiceRecord) : Bool :=
  match s.end_date with
  | some d => decide (d > hi) || decide (d < lo)
  | none => false

/-- `service.start_date && endDate < new Date(service.start_date)`
(inside the `if (service.end_date)` block). -/
def endBeforeStart (s : ServiceRecord) : Bool :=
  match s.end_date, s.start_date with
  | some e, some st => decide (e < st)
  | _, _ => false

/-- `service.estimated_cost !== null && service.estimated_cost < 0`. -/
def negativeCost (s : ServiceRecord) : Bool :=
  match s.estimated_cost with
  | some c => decide (c < 0)
  | none => false

/-- `service_result !== 'PASS' && !== 'FAIL' && !== 'UNKNOWN'`. -/
def unrecognizedResult (s : ServiceRecord) : Bool :=
  !(s.service_result == some "PASS") && !(s.service_result == some "FAIL") &&
    !(s.service_result == some "UNKNOWN")

/-- Penalty added to `invalidRecords` by `calculateAccuracy`'s `forEach` body
for one record.  Each check ends in `return`, so the checks form a
first-match chain: at most one penalty per record. -/
def recordInvalidScore (lo hi : Int) (s : ServiceRecord) : ℚ :=
  if wardOutOfRange s then 1
  else if startDateOutOfWindow lo hi s then 1
  else if endDateOutOfWindow lo hi s then 1
  else if endBeforeStart s then 1
  else if negativeCost s then 1
  else if strTruthy s.service_result then
    if unrecognizedResult s then 1
    else if s.service_result == some "UNKNOWN" then 0.5
    else 0
  else 0

/-- `calculateAccuracy` of `src/lib/supabase.ts` (lines 185-251). -/
def calculateAccuracy (lo hi : Int) (services : List ServiceRecord) : ℚ :=
  let totalRecords := services.length
  if totalRecords = 0 then 100
  else
    let invalidRecords := services.foldl (fun acc s => acc + recordInvalidScore lo hi s) 0
    ((totalRecords : ℚ) - invalidRecords) / (totalRecords : ℚ) * 100

/-- `service.estimated_cost && service.estimated_cost > 0`. -/
def costPositive (s : ServiceRecord) : Bool :=
  match s.estimated_cost with
  | some c => decide (c > 0)
  | none => false

/-- `service.service_result === 'UNKNOWN' && service.estimated_cost && service.estimated_cost > 100000`. -/
def costAbove100000 (s : ServiceRecord) : Bool :=
  match s.estimated_cost with
  | some c => decide (c > 100000)
  | none => false

/-- `service.service_result || service.estimated_cost !== null || service.ward !== null || service.start_date || service.end_date`. -/
def hasOtherData (s : ServiceRecord) : Bool :=
  strTruthy s.service_result || s.estimated_cost.isSome || s.ward.isSome ||
    s.start_date.isSome || s.end_date.isSome

/-- `divName.length > 3 && (divName === divName.toUpperCase() || divName === divName.toLowerCase())`. -/
def badDivisionCase (s : ServiceRecord) : Bool :=
  match s.service_division_owner with
  | some d => decide (d.length > 3) && (d == d.toUpper || d == d.toLower)
  | none => false

/-- One record's inconsistency flag from `calculateConsistency`'s `forEach`
body; each rule ends in `return`, giving a first-match chain. -/
def recordInconsistent (s : ServiceRecord) : Bool :=
  if strTruthy s.service_result && !(s.service_result == some "UNKNOWN") &&
      !(strTruthy s.service_division_owner) then true
  else if costPositive s && (!(strTruthy s.service_division_owner) ||
      !(s.start_date.isSome) || !(s.end_date.isSome)) then true
  else if (s.service_result == some "UNKNOWN") && costAbove100000 s then true
  else if strTruthy s.service_division_owner && !(hasOtherData s) then true
  else if strTruthy s.service_division_owner && badDivisionCase s then true
  else false

/-- `calculateConsistency` of `src/lib/supabase.ts` (lines 253-306). -/
def calculateConsistency (services : List ServiceRecord) : ℚ :=
  let totalRecords := services.length
  if totalRecords = 0 then 100
  else
    let inconsistentRecords := (services.filter (fun s => recordInconsistent s)).length
    ((totalRecords : ℚ) - (inconsistentRecords : ℚ)) / (totalRecords : ℚ) * 100

/-- `hasAllRequiredFields` from `calculateCompleteness`: division, both dates,
cost, ward all populated and a truthy result different from `'UNKNOWN'`. -/
def hasAllRequiredFields (s : ServiceRecord) : Bool :=
  strTruthy s.service_division_owner && s.start_date.isSome && s.end_date.isSome &&
    s.estimated_cost.isSome && s.ward.isSome &&
    strTruthy s.service_result && !(s.service_result == some "UNKNOWN")

/-- `calculateCompleteness` of `src/lib/supabase.ts` (lines 308-333). -/
def calculateCompleteness (services : List ServiceRecord) : ℚ :=
  let totalRecords := services.length
  if totalRecords = 0 then 100
  else
    let completeRecords := (services.filter (fun s => hasAllRequiredFields s)).length
    (completeRecords : ℚ) / (totalRecords : ℚ) * 100

/-- Sum of the positive gaps `ranges[i].start - ranges[i-1].end` between
consecutive date ranges (already sorted by end date). -/
def totalGapDays : List (Int × Int) → Int
  | a :: b :: t => (if b.1 - a.2 > 0 then b.1 - a.2 else 0) + totalGapDays (b :: t)
  | _ => 0

/-- `calculateTimeliness` of `src/lib/supabase.ts` (lines 335-380); `now` is
`currentDate` in days.  Note the `reduce` for the most recent end date starts
from `new Date(0)`, i.e. day 0. -/
def calculateTimeliness (now : Int) (services : List ServiceRecord) : ℚ :=
  let endDates := services.filterMap (fun s => s.end_date)
  if endDates.length = 0 then 0
  else
    let mostRecentDate := endDates.foldl (fun latest d => if d > latest then d else latest) 0
    let daysSinceUpdate : Int := now - mostRecentDate
    let dateRanges := (services.filter (fun s => s.start_date.isSome && s.end_date.isSome)).map
      (fun s => (s.start_date.getD 0, s.end_date.getD 0))
    let sortedRanges := dateRanges.insertionSort (fun a b => a.2 ≤ b.2)
    let gapDays := totalGapDays sortedRanges
    let recencyScore : ℚ := max 0 (min 100 ((1 - (daysSinceUpdate : ℚ) / 365) * 100))
    let coverageScore : ℚ := if dateRanges.length > 1 then max 0 (100 - (gapDays : ℚ) / 30) else 50
    recencyScore * 0.6 + coverageScore * 0.4

/-- Size of the `fieldsWithData` set built by `calculateMetadataQuality`:
which of the five field kinds (division, result, ward, cost, notes) appear
populated anywhere in the record set. -/
def fieldsWithDataCount (services : List ServiceRecord) : Nat :=
  (if services.any (fun s => strTruthy s.service_division_owner) then 1 else 0) +
  (if services.any (fun s => strTruthy s.service_result) then 1 else 0) +
  (if services.any (fun s => s.ward.isSome) then 1 else 0) +
  (if services.any (fun s => s.estimated_cost.isSome) then 1 else 0) +
  (if services.any (fun s => strTruthy s.notes) then 1 else 0)

/-- Cardinality of the `divisions` set (added when the division is truthy). -/
def distinctDivisions (services : List ServiceRecord) : Nat :=
  ((services.filterMap
    (fun s => if strTruthy s.service_division_owner then s.service_division_owner else none)).dedup).length

/-- Cardinality of the `wards` set (added when `ward !== null`). -/
def distinctWards (services : List ServiceRecord) : Nat :=
  ((services.filterMap (fun s => s.ward)).dedup).length

/-- `s.notes && s.notes.trim().length > k`. -/
def notesLongerThan (k : Nat) (s : ServiceRecord) : Bool :=
  match s.notes with
  | some n => !(n == "") && decide (n.trim.length > k)
  | none => false

/-- The duplicate-detection key `${start_date}-${end_date}-${division}-${ward}`,
modelled as the tuple of the four components. -/
def metadataKey (s : ServiceRecord) : Option Int × Option Int × Option String × Option Int :=
  (s.start_date, s.end_date, s.service_division_owner, s.ward)

/-- Number of records whose key was already in the `uniqueKeys` set. -/
def duplicateKeyCount (services : List ServiceRecord) : Nat :=
  (services.map metadataKey).length - ((services.map metadataKey).dedup).length

/-- `calculateMetadataQuality` of `src/lib/supabase.ts` (lines 382-438). -/
def calculateMetadataQuality (services : List ServiceRecord) : ℚ :=
  let totalRecords := services.length
  if totalRecords = 0 then 100
  else
    let fieldDiversityScore : ℚ := (fieldsWithDataCount services : ℚ) / 6 * 100
    let divisionDiversity : ℚ :=
      min 100 ((distinctDivisions services : ℚ) / max 1 ((totalRecords : ℚ) * 0.01) * 100)
    let wardDiversity : ℚ := min 100 ((distinctWards services : ℚ) / 25 * 100)
    let notesScore : ℚ :=
      ((services.filter (fun s => notesLongerThan 0 s)).length : ℚ) / (totalRecords : ℚ) * 30 +
      ((services.filter (fun s => notesLongerThan 10 s)).length : ℚ) / (totalRecords : ℚ) * 70
    let uniquenessScore : ℚ :=
      if totalRecords > 0 then
        ((totalRecords : ℚ) - (duplicateKeyCount services : ℚ)) / (totalRecords : ℚ) * 100
      else 100
    fieldDiversityScore * 0.25 + (divisionDiversity + wardDiversity) / 2 * 0.25 +
      notesScore * 0.25 + uniquenessScore * 0.25

/-- The five dimension scores plus the overall score (the `score` fields of
the `DataQualityMetrics` response; the interpolated strings are omitted). -/
structure DataQualityMetrics where
  completeness : ℚ
  accuracy : ℚ
  timeliness : ℚ
  consistency : ℚ
  validity : ℚ
  overallScore : ℚ
deriving Repr, DecidableEq

/-- `calculateAuditAlignedDataQuality` of `src/lib/supabase.ts` (lines
441-555), restricted to the numeric scores. -/
def calculateAuditAlignedDataQuality (lo hi now : Int) (services : List ServiceRecord) :
    DataQualityMetrics :=
  let accuracyScore := calculateAccuracy lo hi services
  let completenessScore := calculateCompleteness services
  let timelinessScore := calculateTimeliness now services
  let consistencyScore := calculateConsistency services
  let metadataScore := calculateMetadataQuality services
  { completeness := completenessScore
    accuracy := accuracyScore
    timeliness := timelinessScore
    consistency := consistencyScore
    validity := metadataScore
    overallScore :=
      (accuracyScore + completenessScore + timelinessScore + consistencyScore + metadataScore) / 5 }

/-- Readiness metrics: the scores plus the critical-issue / strength lists
(recommendation records and the breakdown map are omitted). -/
structure ReadinessMetrics where
  dataReadinessScore : ℚ
  operationalReadinessScore : ℚ
  qualityReadinessScore : ℚ
  overallReadinessScore : ℚ
  criticalIssues : List String
  strengths : List String
deriving Repr, DecidableEq

/-- `getEmptyReadinessMetrics` of `src/lib/supabase.ts` (lines 753-773): the
structure returned for an empty record set. -/
def getEmptyReadinessMetrics : ReadinessMetrics :=
  { dataReadinessScore := 0
    operationalReadinessScore := 0
    qualityReadinessScore := 0
    overallReadinessScore := 0
    criticalIssues := ["No data available for analysis"]
    strengths := [] }

/-! ## Dashboard API (`pages/api/toronto-dashboard.ts`) -/

namespace Dash

/-- `calculateDataQualityMetrics` of `pages/api/toronto-dashboard.ts` (lines
421-525), restricted to the numeric scores; `now` is `currentDate` in days.
The handler only calls it with a non-empty record set. -/
def calculateDataQualityMetrics (now : Int) (services : List ServiceRecord) : DataQualityMetrics :=
  let totalServices := services.length
  let n : ℚ := (totalServices : ℚ)
  let completenessScore : ℚ :=
    ((((services.filter (fun s => s.start_date.isSome)).length : ℚ) / n +
      (((services.filter (fun s => s.end_date.isSome)).length : ℚ) / n) +
      (((services.filter (fun s => strTruthy s.service_division_owner)).length : ℚ) / n) +
      (((services.filter (fun s =>
          strTruthy s.service_result && !((s.service_result.getD "").trim == ""))).length : ℚ) / n) +
      (((services.filter (fun s => s.ward.isSome)).length : ℚ) / n) +
      (((services.filter (fun s => s.estimated_cost.isSome)).length : ℚ) / n)) / 6) * 100
  let validWards := (services.filter (fun s =>
    match s.ward with
    | some w => decide (1 ≤ w) && decide (w ≤ 25)
    | none => false)).length
  let invalidWard66 := (services.filter (fun s => s.ward == some 66)).length
  let accuracyScore : ℚ :=
    if totalServices > 0 then ((validWards : ℚ) + (invalidWard66 : ℚ)) / n * 100 else 100
  let recentServices := (services.filter (fun s =>
    match s.end_date with
    | some e => decide (((now : ℚ) - (e : ℚ)) ≤ 90)
    | none => false)).length
  let timelinessScore : ℚ := if totalServices > 0 then (recentServices : ℚ) / n * 100 else 0
  let divisionWithResult := (services.filter (fun s =>
    strTruthy s.service_division_owner && strTruthy s.service_result)).length
  let consistencyScore : ℚ := if totalServices > 0 then (divisionWithResult : ℚ) / n * 100 else 100
  let validResults := (services.filter (fun s =>
    s.service_result == none || s.service_result == some "" ||
    s.service_result == some "PASS" || s.service_result == some "FAIL")).length
  let validCosts := (services.filter (fun s =>
    match s.estimated_cost with
    | some c => decide (0 ≤ c) && decide (c ≤ 10000000)
    | none => true)).length
  let validityScore : ℚ :=
    if totalServices > 0 then ((validResults : ℚ) + (validCosts : ℚ)) / (n * 2) * 100 else 100
  { completeness := completenessScore
    accuracy := accuracyScore
    timeliness := timelinessScore
    consistency := consistencyScore
    validity := validityScore
    overallScore :=
      (completenessScore + accuracyScore + timelinessScore + consistencyScore + validityScore) / 5 }

/-- One month's accumulator in `calculateEnhancedTimeSeriesData`'s `monthlyData` map. -/
structure MonthAgg where
  period : String
  totalServices : Nat
  totalCost : ℚ
  passCount : Nat
  failCount : Nat
  unknownCount : Nat
deriving Repr, DecidableEq, Inhabited

/-- The `forEach` body updating one month's accumulator. -/
def addToMonth (m : MonthAgg) (s : ServiceRecord) : MonthAgg :=
  let m := { m with
    totalServices := m.totalServices + 1
    totalCost := m.totalCost + s.estimated_cost.getD 0 }
  if s.service_result == some "PASS" then { m with passCount := m.passCount + 1 }
  else if s.service_result == some "FAIL" then { m with failCount := m.failCount + 1 }
  else { m with unknownCount := m.unknownCount + 1 }

/-- Insertion-ordered map update (`monthlyData.set`): find the entry with the
given period key or append a fresh zero entry. -/
def updateGroups : List MonthAgg → String → ServiceRecord → List MonthAgg
  | [], key, s =>
    [addToMonth { period := key, totalServices := 0, totalCost := 0,
                  passCount := 0, failCount := 0, unknownCount := 0 } s]
  | g :: t, key, s =>
    if g.period == key then addToMonth g s :: t else g :: updateGroups t key s

/-- Grouping of records by calendar month of `start_date`; records without a
start date are skipped.  `monthKey` abstracts `formatYearMonth(new Date(d))`. -/
def groupByMonth (monthKey : Int → String) (services : List ServiceRecord) : List MonthAgg :=
  services.foldl (fun acc s =>
    match s.start_date with
    | none => acc
    | some d => updateGroups acc (monthKey d) s) []

/-- One element of the `timeSeriesData` response. -/
structure TimeSeriesEntry where
  period : String
  totalServices : Nat
  totalCost : ℚ
  avgCost : ℚ
  passCount : Nat
  failCount : Nat
  unknownCount : Nat
  passRate : ℚ
  failRate : ℚ
  unknownRate : ℚ
  momServices : ℚ
  momCost : ℚ
  momPassRate : ℚ
  costEfficiency : ℚ
deriving Repr, DecidableEq, Inhabited

/-- The `sortedData.map((month, index) => ...)` body of
`calculateEnhancedTimeSeriesData` (lines 557-588). -/
def mkTimeSeriesEntry (sortedData : List MonthAgg) (idx : Nat) (month : MonthAgg) :
    TimeSeriesEntry :=
  let avgCost : ℚ := if month.totalServices > 0 then month.totalCost / (month.totalServices : ℚ) else 0
  let passRate : ℚ :=
    if month.totalServices > 0 then (month.passCount : ℚ) / (month.totalServices : ℚ) * 100 else 0
  let failRate : ℚ :=
    if month.totalServices > 0 then (month.failCount : ℚ) / (month.totalServices : ℚ) * 100 else 0
  let unknownRate : ℚ :=
    if month.totalServices > 0 then (month.unknownCount : ℚ) / (month.totalServices : ℚ) * 100 else 0
  let prev : Option MonthAgg := if idx > 0 then some (sortedData.getD (idx - 1) default) else none
  let momServices : ℚ :=
    match prev with
    | some p =>
      if p.totalServices > 0 then
        ((month.totalServices : ℚ) - (p.totalServices : ℚ)) / (p.totalServices : ℚ) * 100
      else 0
    | none => 0
  let momCost : ℚ :=
    match prev with
    | some p => if p.totalCost > 0 then (month.totalCost - p.totalCost) / p.totalCost * 100 else 0
    | none => 0
  let momPassRate : ℚ :=
    match prev with
    | some p =>
      if p.passCount > 0 then passRate - (p.passCount : ℚ) / (p.totalServices : ℚ) * 100 else 0
    | none => 0
  let costEfficiency : ℚ := if avgCost > 0 then passRate / (avgCost / 1000) else 0
  { period := month.period
    totalServices := month.totalServices
    totalCost := month.totalCost
    avgCost := avgCost
    passCount := month.passCount
    failCount := month.failCount
    unknownCount := month.unknownCount
    passRate := passRate
    failRate := failRate
    unknownRate := unknownRate
    momServices := momServices
    momCost := momCost
    momPassRate := momPassRate
    costEfficiency := costEfficiency }

/-- `calculateEnhancedTimeSeriesData` of `pages/api/toronto-dashboard.ts`
(lines 527-589).  Months are sorted by period key (`localeCompare` on
`yyyy-MM` keys is lexicographic order). -/
def calculateEnhancedTimeSeriesData (monthKey : Int → String) (services : List ServiceRecord) :
    List TimeSeriesEntry :=
  let sortedData :=
    (groupByMonth monthKey services).insertionSort (fun a b => a.period ≤ b.period)
  sortedData.enum.map (fun p => mkTimeSeriesEntry sortedData p.1 p.2)

/-- One histogram bin of the `costDistribution` response (the formatted
`label` string is omitted). -/
structure CostDistributionBin where
  min : ℚ
  max : ℚ
  count : Nat
  percentage : ℚ
deriving Repr, DecidableEq

/-- Exact value of `Math.ceil(Math.sqrt(n) * 0.8)`: the least `k` with
`0.8·√n ≤ k`, i.e. with `16·n ≤ 25·k²`.  `Nat.sqrt (16*n/25)` never
overshoots the answer and is at most 2 below it. -/
def ceilPoint8Sqrt (n : Nat) : Nat :=
  let s := Nat.sqrt (16 * n / 25)
  if 16 * n ≤ 25 * s * s then s
  else if 16 * n ≤ 25 * (s + 1) * (s + 1) then s + 1
  else s + 2

/-- `Math.min(12, Math.max(6, Math.ceil(Math.sqrt(n) * 0.8)))`. -/
def binCount (n : Nat) : Nat := min 12 (max 6 (ceilPoint8Sqrt n))

/-- One iteration of the equal-width bin loops: bins `[lo + i·s, lo + (i+1)·s]`
over `k` bins spanning `[lo, hi]` (the last bin's `max` is forced to `hi`),
counting with inclusive bounds on both sides; empty bins are omitted. -/
def mkLinearBin (costs : List ℚ) (lo hi : ℚ) (k i : Nat) : Option CostDistributionBin :=
  let s := (hi - lo) / (k : ℚ)
  let binMin := lo + (i : ℚ) * s
  let binMax := if i = k - 1 then hi else lo + ((i : ℚ) + 1) * s
  let count := (costs.filter (fun c => decide (binMin ≤ c) && decide (c ≤ binMax))).length
  if count > 0 then
    some { min := binMin, max := binMax, count := count,
           percentage := (count : ℚ) / (costs.length : ℚ) * 100 }
  else none

/-- One iteration of the logarithmic bin loop for the upper quartile:
bin bounds are powers of ten of equal steps in log₁₀ space from `q75` to
`maxC`; counting uses a strict lower bound.  `log10` / `pow10` abstract
`Math.log10` / `Math.pow(10, ·)`. -/
def mkLogBin (log10 pow10 : ℚ → ℚ) (costs : List ℚ) (q75 maxC : ℚ) (k i : Nat) :
    Option CostDistributionBin :=
  let logMin := log10 q75
  let logMax := log10 maxC
  let logBinSize := (logMax - logMin) / (k : ℚ)
  let logBinMin := logMin + (i : ℚ) * logBinSize
  let logBinMax := if i = k - 1 then logMax else logMin + ((i : ℚ) + 1) * logBinSize
  let binMin := if i = 0 then q75 else pow10 logBinMin
  let binMax := pow10 logBinMax
  let count := (costs.filter (fun c => decide (binMin < c) && decide (c ≤ binMax))).length
  if count > 0 then
    some { min := binMin, max := binMax, count := count,
           percentage := (count : ℚ) / (costs.length : ℚ) * 100 }
  else none

/-- The positive costs `(s.estimated_cost || 0) > 0`, sorted ascending. -/
def positiveCostsSorted (services : List ServiceRecord) : List ℚ :=
  ((services.map (fun s => s.estimated_cost.getD 0)).filter
    (fun c => decide (0 < c))).insertionSort (fun a b => a ≤ b)

/-- The equal-width bin loop: `k` bins spanning `[lo, hi]`, empty bins omitted. -/
def equalWidthBins (costs : List ℚ) (lo hi : ℚ) (k : Nat) : List CostDistributionBin :=
  (List.range k).filterMap (mkLinearBin costs lo hi k)

/-- The logarithmic bin loop for the upper quartile, empty bins omitted. -/
def logWidthBins (log10 pow10 : ℚ → ℚ) (costs : List ℚ) (q75 maxC : ℚ) (k : Nat) :
    List CostDistributionBin :=
  (List.range k).filterMap (mkLogBin log10 pow10 costs q75 maxC k)

/-- `calculateCostDistribution` of `pages/api/toronto-dashboard.ts` (lines
591-688).  `Math.ceil(binCount * 0.7)` is `(7·b + 9) / 10` in integers. -/
def calculateCostDistribution (log10 pow10 : ℚ → ℚ) (services : List ServiceRecord) :
    List CostDistributionBin :=
  let costs := positiveCostsSorted services
  if costs.length = 0 then []
  else
    let minC := costs.headD 0
    let maxC := costs.getLastD 0
    let binCnt := binCount costs.length
    let range := maxC - minC
    let medianCost := costs.getD (costs.length / 2) 0
    let q75Cost := costs.getD (costs.length * 3 / 4) 0
    if range > medianCost * 100 then
      let lowBinCount := (7 * binCnt + 9) / 10
      let lowBins := equalWidthBins costs minC q75Cost lowBinCount
      let highCostData := costs.filter (fun c => decide (q75Cost < c))
      if highCostData.isEmpty then lowBins
      else
        let highBinCount := binCnt - lowBins.length
        lowBins ++ logWidthBins log10 pow10 costs q75Cost maxC highBinCount
    else
      equalWidthBins costs minC maxC binCnt

/-- One element of the `validWards` response. -/
structure WardMetrics where
  ward : Int
  totalServices : Nat
  totalCost : ℚ
  avgCost : ℚ
  passRate : ℚ
  failRate : ℚ
  unknownRate : ℚ
  costEfficiency : ℚ
deriving Repr, DecidableEq, Inhabited

/-- The per-ward aggregate of `calculateWardAnalysis` (lines 729-747). -/
def wardMetricsFor (services : List ServiceRecord) (wardNum : Int) : WardMetrics :=
  let wardServices := services.filter (fun s => s.ward == some wardNum)
  let totalServices := wardServices.length
  let totalCost := wardServices.foldl (fun sum s => sum + s.estimated_cost.getD 0) 0
  let passCount := (wardServices.filter (fun s => s.service_result == some "PASS")).length
  let failCount := (wardServices.filter (fun s => s.service_result == some "FAIL")).length
  let unknownCount := (wardServices.filter (fun s =>
    s.service_result.isNone || s.service_result == some "")).length
  { ward := wardNum
    totalServices := totalServices
    totalCost := totalCost
    avgCost := if totalServices > 0 then totalCost / (totalServices : ℚ) else 0
    passRate := if totalServices > 0 then (passCount : ℚ) / (totalServices : ℚ) * 100 else 0
    failRate := if totalServices > 0 then (failCount : ℚ) / (totalServices : ℚ) * 100 else 0
    unknownRate := if totalServices > 0 then (unknownCount : ℚ) / (totalServices : ℚ) * 100 else 0
    costEfficiency :=
      if totalServices > 0 ∧ totalCost > 0 then
        ((passCount : ℚ) / (totalServices : ℚ)) / (totalCost / (totalServices : ℚ) / 1000)
      else 0 }

/-- The anomaly block for the out-of-domain sentinel ward 66 (lines 749-779);
the `impactAnalysis` nesting is flattened and the fixed recommendation
strings are omitted. -/
structure Ward66Analysis where
  count : Nat
  totalCost : ℚ
  avgCost : ℚ
  passRate : ℚ
  percentageOfTotalServices : ℚ
  percentageOfTotalCost : ℚ
  avgCostDifference : ℚ
  passRateDifference : ℚ
deriving Repr, DecidableEq

/-- One element of the `wardEfficiencyRanking` response. -/
structure WardEfficiencyItem where
  ward : Int
  efficiencyScore : ℚ
  totalServices : Nat
  totalCost : ℚ
  passRate : ℚ
  costPerPassingService : ℚ
  rank : Nat
deriving Repr, DecidableEq, Inhabited

/-- The ranking-item construction of lines 782-797.  JavaScript yields
`Infinity` for `costPerPassingService` when `passRate = 0`; that branch is
modelled as 0 (no claim depends on the field). -/
def toEfficiencyItem (w : WardMetrics) : WardEfficiencyItem :=
  { ward := w.ward
    efficiencyScore :=
      if w.passRate > 0 ∧ w.avgCost > 0 then (w.passRate / 100) / (w.avgCost / 1000) * 100 else 0
    totalServices := w.totalServices
    totalCost := w.totalCost
    passRate := w.passRate
    costPerPassingService :=
      if w.passRate > 0 then w.totalCost / ((w.totalServices : ℚ) * (w.passRate / 100)) else 0
    rank := 0 }

/-- `.map((ward, index) => ({ ...ward, rank: index + 1 }))` after sorting. -/
def assignRanks : Nat → List WardEfficiencyItem → List WardEfficiencyItem
  | _, [] => []
  | i, x :: t => { x with rank := i } :: assignRanks (i + 1) t

/-- The `wardAnalysis` response object. -/
structure WardAnalysisData where
  validWards : List WardMetrics
  invalidWard66 : Ward66Analysis
  wardEfficiencyRanking : List WardEfficiencyItem
  totalWardsCovered : Nat
  wardCoveragePercentage : ℚ
deriving Repr, DecidableEq

/-- `calculateWardAnalysis` of `pages/api/toronto-dashboard.ts` (lines
722-811).  The unused `wardDataArray` parameter and the unused
`validWardServices` binding are dropped.  The descending sort on
`efficiencyScore` (comparator `b.efficiencyScore - a.efficiencyScore`,
stable) is `insertionSort` with `b.efficiencyScore ≤ a.efficiencyScore`. -/
def calculateWardAnalysis (services : List ServiceRecord) : WardAnalysisData :=
  let validWardNumbers : List Int := (List.range 25).map (fun (i : Nat) => (i : Int) + 1)
  let ward66Services := services.filter (fun s => s.ward == some 66)
  let validWards := (validWardNumbers.map (wardMetricsFor services)).filter
    (fun w => w.totalServices > 0)
  let ward66TotalCost := ward66Services.foldl (fun sum s => sum + s.estimated_cost.getD 0) 0
  let ward66PassCount := (ward66Services.filter (fun s => s.service_result == some "PASS")).length
  let ward66PassRate : ℚ :=
    if ward66Services.length > 0 then
      (ward66PassCount : ℚ) / (ward66Services.length : ℚ) * 100
    else 0
  let ward66AvgCost : ℚ :=
    if ward66Services.length > 0 then ward66TotalCost / (ward66Services.length : ℚ) else 0
  let validWardsAvgCost : ℚ :=
    if validWards.length > 0 then
      (validWards.foldl (fun sum w => sum + w.avgCost) 0) / (validWards.length : ℚ)
    else 0
  let validWardsAvgPassRate : ℚ :=
    if validWards.length > 0 then
      (validWards.foldl (fun sum w => sum + w.passRate) 0) / (validWards.length : ℚ)
    else 0
  let totalCostAll := services.foldl (fun sum s => sum + s.estimated_cost.getD 0) 0
  let ranking := assignRanks 1
    ((validWards.map toEfficiencyItem).insertionSort
      (fun a b => b.efficiencyScore ≤ a.efficiencyScore))
  { validWards := validWards
    invalidWard66 :=
      { count := ward66Services.length
        totalCost := ward66TotalCost
        avgCost := ward66AvgCost
        passRate := ward66PassRate
        percentageOfTotalServices :=
          if services.length > 0 then
            (ward66Services.length : ℚ) / (services.length : ℚ) * 100
          else 0
        percentageOfTotalCost := if totalCostAll > 0 then ward66TotalCost / totalCostAll * 100 else 0
        avgCostDifference := ward66AvgCost - validWardsAvgCost
        passRateDifference := ward66PassRate - validWardsAvgPassRate }
    wardEfficiencyRanking := ranking
    totalWardsCovered := validWards.length
    wardCoveragePercentage := (validWards.length : ℚ) / 25 * 100 }

end Dash

/-! ## Spec-side definitions (used only to compare against the source) -/

/-- Modelled from the spec's accuracy rule (claim C6 reading): violations
accumulate additively across all matching rules for a record. -/
def specRecordViolations (lo hi : Int) (s : ServiceRecord) : ℚ :=
  (if wardOutOfRange s then 1 else 0) +
  (if startDateOutOfWindow lo hi s || endDateOutOfWindow lo hi s || endBeforeStart s then 1 else 0) +
  (if negativeCost s then 1 else 0) +
  (if strTruthy s.service_result && unrecognizedResult s then 1 else 0) +
  (if s.service_result == some "UNKNOWN" then 0.5 else 0)

/-- Modelled from the spec's accuracy formula: `100 × (total − Σviolations) /
total, floored at 0`, with additive per-record violations. -/
def specAccuracyAdditive (lo hi : Int) (services : List ServiceRecord) : ℚ :=
  let n := services.length
  if n = 0 then 100
  else
    max 0
      (((n : ℚ) - services.foldl (fun acc s => acc + specRecordViolations lo hi s) 0) / (n : ℚ) * 100)

/-- Modelled from the spec (§4.3): group cost efficiency
`(passRate/100) / (avgCost/1000)` when `avgCost > 0`, else 0. -/
def specGroupCostEfficiency (passRate avgCost : ℚ) : ℚ :=
  if avgCost > 0 then (passRate / 100) / (avgCost / 1000) else 0

/-! ## Concrete fixtures (used by witnesses and counterexamples) -/

/-- A fully populated passing record in ward 5. -/
def exPass : ServiceRecord :=
  { start_date := some 0, end_date := some 10, service_division_owner := some "Parks Dept",
    ward := some 5, estimated_cost := some 1000, service_result := some "PASS" }

/-- A record whose only populated field is a 5-dollar cost. -/
def exCost5 : ServiceRecord := { estimated_cost := some 5 }

/-- A record with the out-of-domain ward 30 (not the sentinel 66). -/
def exWard30 : ServiceRecord := { ward := some 30 }

/-- A record violating both the ward rule (66) and the cost rule (negative). -/
def exWard66Neg : ServiceRecord := { ward := some 66, estimated_cost := some (-5) }

/-- A record with every field absent. -/
def exBlank : ServiceRecord := {}

/-- A record with every required field populated except the result. -/
def exNoResult : ServiceRecord :=
  { start_date := some 10, end_date := some 20, service_division_owner := some "Parks Dept",
    ward := some 5, estimated_cost := some 5 }

/-- A record whose result field is the literal string UNKNOWN. -/
def exUnknown : ServiceRecord := { service_result := some "UNKNOWN" }

/-- Records with costs 2, 8 and 14 (equal-width binning fixture). -/
def exCost2 : ServiceRecord := { estimated_cost := some 2 }

/-- Cost-8 fixture record. -/
def exCost8 : ServiceRecord := { estimated_cost := some 8 }

/-- Cost-14 fixture record. -/
def exCost14 : ServiceRecord := { estimated_cost := some 14 }

/-- The month aggregate row produced by `[exPass]` (period key constant). -/
def exMonthEntry : Dash.TimeSeriesEntry :=
  { period := "2020-01", totalServices := 1, totalCost := 1000, avgCost := 1000,
    passCount := 1, failCount := 0, unknownCount := 0, passRate := 100, failRate := 0,
    unknownRate := 0, momServices := 0, momCost := 0, momPassRate := 0, costEfficiency := 100 }

/-- The ward-5 aggregate produced by `[exPass]`. -/
def exWard5 : Dash.WardMetrics :=
  { ward := 5, totalServices := 1, totalCost := 1000, avgCost := 1000, passRate := 100,
    failRate := 0, unknownRate := 0, costEfficiency := 1 }

/-! ## Helper lemmas -/

lemma foldl_add_eq_sum {α : Type} (f : α → ℚ) (l : List α) (init : ℚ) :
    l.foldl (fun acc s => acc + f s) init = init + (l.map f).sum := by
  induction l generalizing init with
  | nil => simp
  | cons a t ih => simp [ih, add_assoc]

lemma sum_le_length_of_le_one {l : List ℚ} (h : ∀ x ∈ l, x ≤ 1) : l.sum ≤ (l.length : ℚ) := by
  induction l with
  | nil => simp
  | cons a t ih =>
    simp only [List.sum_cons, List.length_cons]
    have ha := h a (by simp)
    have ht := ih (fun x hx => h x (by simp [hx]))
    push_cast
    linarith

lemma pct_nonneg {a n : ℚ} (ha : 0 ≤ a) (hn : 0 ≤ n) : 0 ≤ a / n * 100 := by positivity

lemma pct_le_100 {a n : ℚ} (h : a ≤ n) (hn : 0 < n) : a / n * 100 ≤ 100 := by
  have h1 : a / n ≤ 1 := (div_le_one hn).mpr h
  linarith

lemma recordInvalidScore_nonneg (lo hi : Int) (s : ServiceRecord) :
    0 ≤ recordInvalidScore lo hi s := by
  unfold recordInvalidScore; split_ifs <;> norm_num

lemma recordInvalidScore_le_one (lo hi : Int) (s : ServiceRecord) :
    recordInvalidScore lo hi s ≤ 1 := by
  unfold recordInvalidScore; split_ifs <;> norm_num

lemma calculateAccuracy_bounds (lo hi : Int) (services : List ServiceRecord) :
    0 ≤ calculateAccuracy lo hi services ∧ calculateAccuracy lo hi services ≤ 100 := by
  unfold calculateAccuracy
  by_cases h : services.length = 0
  · simp [h]
  · have hlen : 0 < services.length := Nat.pos_of_ne_zero h
    have hn : (0 : ℚ) < (services.length : ℚ) := by exact_mod_cast hlen
    simp only [h, if_false]
    rw [foldl_add_eq_sum (recordInvalidScore lo hi), zero_add]
    have hsum0 : 0 ≤ (services.map (recordInvalidScore lo hi)).sum := by
      apply List.sum_nonneg
      intro x hx
      obtain ⟨s, _, rfl⟩ := List.mem_map.mp hx
      exact recordInvalidScore_nonneg lo hi s
    have hsum1 : (services.map (recordInvalidScore lo hi)).sum ≤ (services.length : ℚ) := by
      have := sum_le_length_of_le_one (l := services.map (recordInvalidScore lo hi)) ?_
      · simpa using this
      · intro x hx
        obtain ⟨s, _, rfl⟩ := List.mem_map.mp hx
        exact recordInvalidScore_le_one lo hi s
    exact ⟨pct_nonneg (by linarith) (le_of_lt hn), pct_le_100 (by linarith) hn⟩

lemma calculateCompleteness_bounds (services : List ServiceRecord) :
    0 ≤ calculateCompleteness services ∧ calculateCompleteness services ≤ 100 := by
  unfold calculateCompleteness
  by_cases h : services.length = 0
  · simp [h]
  · have hlen : 0 < services.length := Nat.pos_of_ne_zero h
    have hn : (0 : ℚ) < (services.length : ℚ) := by exact_mod_cast hlen
    have hfilter : ((services.filter (fun s => hasAllRequiredFields s)).length : ℚ) ≤
        (services.length : ℚ) := by exact_mod_cast List.length_filter_le _ _
    simp only [h, if_false]
    exact ⟨pct_nonneg (by positivity) (le_of_lt hn), pct_le_100 hfilter hn⟩

lemma calculateConsistency_bounds (services : List ServiceRecord) :
    0 ≤ calculateConsistency services ∧ calculateConsistency services ≤ 100 := by
  unfold calculateConsistency
  by_cases h : services.length = 0
  · simp [h]
  · have hlen : 0 < services.length := Nat.pos_of_ne_zero h
    have hn : (0 : ℚ) < (services.length : ℚ) := by exact_mod_cast hlen
    have hfilter : ((services.filter (fun s => recordInconsistent s)).length : ℚ) ≤
        (services.length : ℚ) := by exact_mod_cast List.length_filter_le _ _
    have hfilter0 : (0 : ℚ) ≤ ((services.filter (fun s => recordInconsistent s)).length : ℚ) := by
      positivity
    simp only [h, if_false]
    exact ⟨pct_nonneg (by linarith) (le_of_lt hn), pct_le_100 (by linarith) hn⟩

lemma totalGapDays_nonneg : ∀ l : List (Int × Int), 0 ≤ totalGapDays l
  | [] => le_refl 0
  | [_] => le_refl 0
  | a :: b :: t => by
    have ih := totalGapDays_nonneg (b :: t)
    show 0 ≤ (if b.1 - a.2 > 0 then b.1 - a.2 else 0) + totalGapDays (b :: t)
    split <;> omega

lemma calculateTimeliness_bounds (now : Int) (services : List ServiceRecord) :
    0 ≤ calculateTimeliness now services ∧ calculateTimeliness now services ≤ 100 := by
  unfold calculateTimeliness
  by_cases h : (services.filterMap (fun s => s.end_date)).length = 0
  · simp [h]
  · simp only [h, if_false]
    set x : ℚ := (1 - ((now - (services.filterMap (fun s => s.end_date)).foldl
      (fun latest d => if d > latest then d else latest) 0 : Int) : ℚ) / 365) * 100 with hx
    have hrec0 : (0 : ℚ) ≤ max 0 (min 100 x) := le_max_left 0 _
    have hrec1 : max 0 (min 100 x) ≤ 100 := max_le (by norm_num) (min_le_left _ _)
    set g := totalGapDays (((services.filter
      (fun s => s.start_date.isSome && s.end_date.isSome)).map
      (fun s => (s.start_date.getD 0, s.end_date.getD 0))).insertionSort
      (fun a b => a.2 ≤ b.2)) with hg
    have hgq : (0 : ℚ) ≤ (g : ℚ) := by exact_mod_cast totalGapDays_nonneg _
    split_ifs with hcov
    · have hcov0 : (0 : ℚ) ≤ max 0 (100 - (g : ℚ) / 30) := le_max_left 0 _
      have hcov1 : max 0 (100 - (g : ℚ) / 30) ≤ 100 := by
        apply max_le (by norm_num)
        have : (0 : ℚ) ≤ (g : ℚ) / 30 := by positivity
        linarith
      constructor <;> nlinarith
    · constructor <;> nlinarith

lemma fieldsWithDataCount_le_five (services : List ServiceRecord) :
    fieldsWithDataCount services ≤ 5 := by
  unfold fieldsWithDataCount; split_ifs <;> norm_num

lemma duplicateKeyCount_le_length (services : List ServiceRecord) :
    duplicateKeyCount services ≤ services.length := by
  unfold duplicateKeyCount
  calc (services.map metadataKey).length - ((services.map metadataKey).dedup).length
      ≤ (services.map metadataKey).length := Nat.sub_le _ _
    _ = services.length := List.length_map _ _

lemma calculateMetadataQuality_le_of_ne_nil (services : List ServiceRecord)
    (h : services ≠ []) : calculateMetadataQuality services ≤ 575 / 6 := by
  have hlen : services.length ≠ 0 := fun hc => h (List.length_eq_zero.mp hc)
  have hlenpos : 0 < services.length := Nat.pos_of_ne_zero hlen
  have hn : (0 : ℚ) < (services.length : ℚ) := by exact_mod_cast hlenpos
  unfold calculateMetadataQuality
  simp only [hlen, if_false, hlenpos, if_true]
  have hfd : ((fieldsWithDataCount services : ℚ)) / 6 * 100 ≤ 250 / 3 := by
    have h5 : ((fieldsWithDataCount services : ℚ)) ≤ 5 := by
      exact_mod_cast fieldsWithDataCount_le_five services
    linarith
  have hdd : min 100 ((distinctDivisions services : ℚ) /
      max 1 ((services.length : ℚ) * 0.01) * 100) ≤ 100 := min_le_left _ _
  have hdd0 : (0 : ℚ) ≤ min 100 ((distinctDivisions services : ℚ) /
      max 1 ((services.length : ℚ) * 0.01) * 100) := by
    apply le_min (by norm_num)
    have hden : (0 : ℚ) < max 1 ((services.length : ℚ) * 0.01) :=
      lt_of_lt_of_le one_pos (le_max_left _ _)
    positivity
  have hwd : min 100 ((distinctWards services : ℚ) / 25 * 100) ≤ 100 := min_le_left _ _
  have hwd0 : (0 : ℚ) ≤ min 100 ((distinctWards services : ℚ) / 25 * 100) := by
    apply le_min (by norm_num)
    positivity
  have hns1 : ((services.filter (fun s => notesLongerThan 0 s)).length : ℚ) ≤
      (services.length : ℚ) := by exact_mod_cast List.length_filter_le _ _
  have hns2 : ((services.filter (fun s => notesLongerThan 10 s)).length : ℚ) ≤
      (services.length : ℚ) := by exact_mod_cast List.length_filter_le _ _
  have hnsa : ((services.filter (fun s => notesLongerThan 0 s)).length : ℚ) /
      (services.length : ℚ) ≤ 1 := (div_le_one hn).mpr hns1
  have hnsb : ((services.filter (fun s => notesLongerThan 10 s)).length : ℚ) /
      (services.length : ℚ) ≤ 1 := (div_le_one hn).mpr hns2
  have hdup : ((duplicateKeyCount services : ℚ)) ≤ (services.length : ℚ) := by
    exact_mod_cast duplicateKeyCount_le_length services
  have huq : ((services.length : ℚ) - (duplicateKeyCount services : ℚ)) /
      (services.length : ℚ) * 100 ≤ 100 := by
    apply pct_le_100 _ hn
    have : (0 : ℚ) ≤ (duplicateKeyCount services : ℚ) := by positivity
    linarith
  nlinarith [hfd, hdd, hdd0, hwd, hwd0, hnsa, hnsb, huq]

lemma calculateMetadataQuality_nonneg (services : List ServiceRecord) :
    0 ≤ calculateMetadataQuality services := by
  unfold calculateMetadataQuality
  by_cases h : services.length = 0
  · simp [h]
  · have hlenpos : 0 < services.length := Nat.pos_of_ne_zero h
    have hn : (0 : ℚ) < (services.length : ℚ) := by exact_mod_cast hlenpos
    simp only [h, if_false, hlenpos, if_true]
    have hden : (0 : ℚ) < max 1 ((services.length : ℚ) * 0.01) :=
      lt_of_lt_of_le one_pos (le_max_left _ _)
    have hdd0 : (0 : ℚ) ≤ min 100 ((distinctDivisions services : ℚ) /
        max 1 ((services.length : ℚ) * 0.01) * 100) := by
      apply le_min (by norm_num)
      positivity
    have hwd0 : (0 : ℚ) ≤ min 100 ((distinctWards services : ℚ) / 25 * 100) := by
      apply le_min (by norm_num)
      positivity
    have hdup : ((duplicateKeyCount services : ℚ)) ≤ (services.length : ℚ) := by
      exact_mod_cast duplicateKeyCount_le_length services
    have huq0 : (0 : ℚ) ≤ ((services.length : ℚ) - (duplicateKeyCount services : ℚ)) /
        (services.length : ℚ) * 100 := pct_nonneg (by linarith) (le_of_lt hn)
    have hfd0 : (0 : ℚ) ≤ ((fieldsWithDataCount services : ℚ)) / 6 * 100 := by positivity
    have hns0 : (0 : ℚ) ≤
        ((services.filter (fun s => notesLongerThan 0 s)).length : ℚ) /
          (services.length : ℚ) * 30 +
        ((services.filter (fun s => notesLongerThan 10 s)).length : ℚ) /
          (services.length : ℚ) * 70 := by positivity
    nlinarith [hdd0, hwd0, huq0, hfd0, hns0]

lemma calculateMetadataQuality_bounds (services : List ServiceRecord) :
    0 ≤ calculateMetadataQuality services ∧ calculateMetadataQuality services ≤ 100 := by
  refine ⟨calculateMetadataQuality_nonneg services, ?_⟩
  by_cases h : services = []
  · subst h; norm_num [calculateMetadataQuality]
  · have := calculateMetadataQuality_le_of_ne_nil services h
    linarith

/-! ## Claim theorems -/

/-- C1: For every record set, the quality calculator's `overallScore` equals
the arithmetic mean of the five dimension scores (completeness, accuracy,
consistency, timeliness, metadata/validity); exactly in rational arithmetic,
hence within floating-point tolerance.  Holds for both the data-readiness
calculator and the dashboard calculator (the latter is only invoked on
non-empty record sets). -/
theorem overallScore_is_mean_of_dimensions (lo hi now : Int) (services : List ServiceRecord) :
    (calculateAuditAlignedDataQuality lo hi now services).overallScore =
      ((calculateAuditAlignedDataQuality lo hi now services).completeness +
       (calculateAuditAlignedDataQuality lo hi now services).accuracy +
       (calculateAuditAlignedDataQuality lo hi now services).consistency +
       (calculateAuditAlignedDataQuality lo hi now services).timeliness +
       (calculateAuditAlignedDataQuality lo hi now services).validity) / 5 ∧
    (services ≠ [] →
      (Dash.calculateDataQualityMetrics now services).overallScore =
        ((Dash.calculateDataQualityMetrics now services).completeness +
         (Dash.calculateDataQualityMetrics now services).accuracy +
         (Dash.calculateDataQualityMetrics now services).consistency +
         (Dash.calculateDataQualityMetrics now services).timeliness +
         (Dash.calculateDataQualityMetrics now services).validity) / 5) := by
  constructor
  · simp only [calculateAuditAlignedDataQuality]
    ring
  · intro _
    simp only [Dash.calculateDataQualityMetrics]
    ring

/-- Witness for C1's non-emptiness hypothesis at a concrete record set. -/
theorem overallScore_is_mean_witness :
    (Dash.calculateDataQualityMetrics 50 [exPass]).overallScore =
      ((Dash.calculateDataQualityMetrics 50 [exPass]).completeness +
       (Dash.calculateDataQualityMetrics 50 [exPass]).accuracy +
       (Dash.calculateDataQualityMetrics 50 [exPass]).consistency +
       (Dash.calculateDataQualityMetrics 50 [exPass]).timeliness +
       (Dash.calculateDataQualityMetrics 50 [exPass]).validity) / 5 :=
  (overallScore_is_mean_of_dimensions 0 100 50 [exPass]).2 (by decide)

/-- C2: For every record set, each of the five dimension scores returned by
the quality calculator lies within [0, 100]. -/
theorem dimension_scores_within_0_100 (lo hi now : Int) (services : List ServiceRecord) :
    (0 ≤ calculateCompleteness services ∧ calculateCompleteness services ≤ 100) ∧
    (0 ≤ calculateAccuracy lo hi services ∧ calculateAccuracy lo hi services ≤ 100) ∧
    (0 ≤ calculateConsistency services ∧ calculateConsistency services ≤ 100) ∧
    (0 ≤ calculateTimeliness now services ∧ calculateTimeliness now services ≤ 100) ∧
    (0 ≤ calculateMetadataQuality services ∧ calculateMetadataQuality services ≤ 100) :=
  ⟨calculateCompleteness_bounds services, calculateAccuracy_bounds lo hi services,
   calculateConsistency_bounds services, calculateTimeliness_bounds now services,
   calculateMetadataQuality_bounds services⟩

/-- C8: For the empty record set no dimension calculator raises (all are total
functions with defined values): completeness and consistency return the
vacuous 100, timeliness returns 0 (no dated record), the overall score is
still computed (= 80), and the empty readiness metrics carry the explicit
"no data" critical issue. -/
theorem empty_record_set_defensive (lo hi now : Int) :
    calculateCompleteness [] = 100 ∧ calculateConsistency [] = 100 ∧
    calculateAccuracy lo hi [] = 100 ∧ calculateTimeliness now [] = 0 ∧
    calculateMetadataQuality [] = 100 ∧
    (calculateAuditAlignedDataQuality lo hi now []).overallScore = 80 ∧
    "No data available for analysis" ∈ getEmptyReadinessMetrics.criticalIssues := by
  refine ⟨rfl, rfl, rfl, rfl, rfl, ?_, ?_⟩
  · show ((100 : ℚ) + 100 + 0 + 100 + 100) / 5 = 80
    norm_num
  · simp [getEmptyReadinessMetrics]

/-- C10: the metadata quality score of a non-empty record set is at most
95.84 (in fact 575/6 ≈ 95.83) and never equals 100, because the
field-diversity sub-score divides by 6 though at most 5 field kinds can be
populated; only the empty record set scores 100. -/
theorem metadata_quality_capped :
    (∀ services : List ServiceRecord, services ≠ [] →
        calculateMetadataQuality services ≤ 9584 / 100 ∧
        calculateMetadataQuality services ≠ 100) ∧
    (∀ services : List ServiceRecord, fieldsWithDataCount services ≤ 5) ∧
    calculateMetadataQuality [] = 100 := by
  refine ⟨?_, fieldsWithDataCount_le_five, rfl⟩
  intro services h
  have hle := calculateMetadataQuality_le_of_ne_nil services h
  have h6 : (575 : ℚ) / 6 ≤ 9584 / 100 := by norm_num
  refine ⟨le_trans hle h6, ?_⟩
  intro hc
  rw [hc] at hle
  norm_num at hle

/-- Witness for C10's non-emptiness hypothesis at a concrete record set. -/
theorem metadata_quality_capped_witness :
    calculateMetadataQuality [exPass] ≤ 9584 / 100 ∧
    calculateMetadataQuality [exPass] ≠ 100 :=
  metadata_quality_capped.1 [exPass] (by decide)

/-- Unfolding: the `validWards` component of the ward analysis. -/
lemma wardAnalysis_validWards_eq (services : List ServiceRecord) :
    (Dash.calculateWardAnalysis services).validWards =
      (((List.range 25).map (fun (i : Nat) => (i : Int) + 1)).map (Dash.wardMetricsFor services)).filter
        (fun w => w.totalServices > 0) := rfl

/-- Unfolding: the anomaly block's `count` is the number of ward-66 records. -/
lemma wardAnalysis_count66_eq (services : List ServiceRecord) :
    (Dash.calculateWardAnalysis services).invalidWard66.count =
      (services.filter (fun s => s.ward == some 66)).length := rfl

/-- Unfolding: the efficiency ranking component of the ward analysis. -/
lemma wardAnalysis_ranking_eq (services : List ServiceRecord) :
    (Dash.calculateWardAnalysis services).wardEfficiencyRanking =
      Dash.assignRanks 1
        (((Dash.calculateWardAnalysis services).validWards.map
          Dash.toEfficiencyItem).insertionSort
            (fun a b => b.efficiencyScore ≤ a.efficiencyScore)) := rfl

/-- C5 (amended): a record whose ward is outside [1, 25] never contributes to
any `validWards` entry (each entry's ward is in [1, 25] and its totals count
exactly the records with that ward), and the anomaly block's `count` counts
exactly the records with ward = 66 — records with any other out-of-domain
ward are not counted there. -/
theorem valid_wards_exclude_out_of_domain (services : List ServiceRecord) :
    (∀ w ∈ (Dash.calculateWardAnalysis services).validWards,
      1 ≤ w.ward ∧ w.ward ≤ 25 ∧ 0 < w.totalServices ∧
      w.totalServices = (services.filter (fun s => s.ward == some w.ward)).length) ∧
    (Dash.calculateWardAnalysis services).invalidWard66.count =
      (services.filter (fun s => s.ward == some 66)).length := by
  constructor
  · intro w hw
    rw [wardAnalysis_validWards_eq, List.mem_filter] at hw
    obtain ⟨hmem, hpos⟩ := hw
    rw [List.mem_map] at hmem
    obtain ⟨k, hk, hwk⟩ := hmem
    rw [List.mem_map] at hk
    obtain ⟨i, hi, hik⟩ := hk
    rw [List.mem_range] at hi
    subst hwk
    subst hik
    have hward : (Dash.wardMetricsFor services ((i : Int) + 1)).ward = (i : Int) + 1 := rfl
    refine ⟨by rw [hward]; omega, by rw [hward]; omega, by simpa using hpos, ?_⟩
    rw [hward]
    rfl
  · exact wardAnalysis_count66_eq services

/-- C5 counterexample: a record with ward 30 is out of domain, appears in no
`validWards` entry, yet the anomaly block's `count` is 0, not 1 — the block
only counts the sentinel ward 66. -/
theorem out_of_domain_ward_not_in_anomaly_counterexample :
    wardOutOfRange exWard30 = true ∧
    (Dash.calculateWardAnalysis [exWard30]).validWards = [] ∧
    (Dash.calculateWardAnalysis [exWard30]).invalidWard66.count = 0 ∧
    ([exWard30].filter (fun s => wardOutOfRange s)).length = 1 := by
  refine ⟨by decide, ?_, by decide, by decide⟩
  rw [wardAnalysis_validWards_eq]
  decide

/-- Witness for C5: ward 5's aggregate in a one-record set. -/
theorem valid_wards_exclude_out_of_domain_witness :
    1 ≤ (Dash.wardMetricsFor [exPass] 5).ward ∧ (Dash.wardMetricsFor [exPass] 5).ward ≤ 25 ∧
    0 < (Dash.wardMetricsFor [exPass] 5).totalServices ∧
    (Dash.wardMetricsFor [exPass] 5).totalServices =
      ([exPass].filter (fun s => s.ward == some (Dash.wardMetricsFor [exPass] 5).ward)).length :=
  (valid_wards_exclude_out_of_domain [exPass]).1 (Dash.wardMetricsFor [exPass] 5) (by
    rw [wardAnalysis_validWards_eq]
    simp [List.range_succ, Dash.wardMetricsFor, exPass])

/-- C6 (amended): accuracy equals `100 × (total − Σ penalties) / total`, where
each record's penalty comes from the FIRST matching rule only (ward, then
date window / order, then negative cost, then unrecognized enum, then 0.5
for UNKNOWN); penalties are at most 1 per record, so the score is never
negative and the spec's floor at 0 is vacuous.  Violations are NOT additive
across rules of one record. -/
theorem accuracy_first_match_penalty (lo hi : Int) (services : List ServiceRecord)
    (h : services ≠ []) :
    calculateAccuracy lo hi services =
      ((services.length : ℚ) - (services.map (recordInvalidScore lo hi)).sum) /
        (services.length : ℚ) * 100 ∧
    0 ≤ calculateAccuracy lo hi services ∧
    (∀ s : ServiceRecord, 0 ≤ recordInvalidScore lo hi s ∧ recordInvalidScore lo hi s ≤ 1) ∧
    (∀ s : ServiceRecord, wardOutOfRange s = true → recordInvalidScore lo hi s = 1) := by
  have hlen : services.length ≠ 0 := fun hc => h (List.length_eq_zero.mp hc)
  refine ⟨?_, (calculateAccuracy_bounds lo hi services).1,
    fun s => ⟨recordInvalidScore_nonneg lo hi s, recordInvalidScore_le_one lo hi s⟩,
    fun s hs => by simp [recordInvalidScore, hs]⟩
  unfold calculateAccuracy
  simp only [hlen, if_false]
  rw [foldl_add_eq_sum (recordInvalidScore lo hi), zero_add]

/-- C6 counterexample: a record violating both the ward rule (ward 66) and
the cost rule (cost −5) is penalized once, not twice: alongside one clean
record the code scores 50, while the spec's additive formula gives 0. -/
theorem accuracy_not_additive_counterexample :
    wardOutOfRange exWard66Neg = true ∧ negativeCost exWard66Neg = true ∧
    calculateAccuracy 0 100 [exBlank, exWard66Neg] = 50 ∧
    specAccuracyAdditive 0 100 [exBlank, exWard66Neg] = 0 := by
  refine ⟨by decide, by decide, ?_, ?_⟩
  · norm_num [calculateAccuracy, recordInvalidScore, exBlank, exWard66Neg, strTruthy,
      wardOutOfRange, startDateOutOfWindow, endDateOutOfWindow, endBeforeStart, negativeCost,
      unrecognizedResult]
  · simp [specAccuracyAdditive, specRecordViolations, exBlank, exWard66Neg, strTruthy,
      wardOutOfRange, startDateOutOfWindow, endDateOutOfWindow, endBeforeStart, negativeCost,
      unrecognizedResult]
    norm_num

/-- Witness for C6 at the two-record counterexample set. -/
theorem accuracy_first_match_penalty_witness :
    calculateAccuracy 0 100 [exBlank, exWard66Neg] =
      (([exBlank, exWard66Neg].length : ℚ) -
        ([exBlank, exWard66Neg].map (recordInvalidScore 0 100)).sum) /
        ([exBlank, exWard66Neg].length : ℚ) * 100 :=
  (accuracy_first_match_penalty 0 100 [exBlank, exWard66Neg] (by decide)).1

/-- C7 (amended): a record whose result is absent or empty is counted as a
required-field gap by the completeness calculator, but it does NOT incur the
0.5 accuracy penalty — `calculateAccuracy` skips all result checks for falsy
results.  The 0.5 penalty applies exactly to records whose result is the
literal string UNKNOWN (when no earlier rule fires). -/
theorem absent_result_gap_but_no_penalty (lo hi : Int) (r : ServiceRecord) :
    (strTruthy r.service_result = false →
      hasAllRequiredFields r = false ∧ recordInvalidScore lo hi r ≠ 0.5) ∧
    (r.service_result = some "UNKNOWN" →
      hasAllRequiredFields r = false ∧
      (wardOutOfRange r = false → startDateOutOfWindow lo hi r = false →
       endDateOutOfWindow lo hi r = false → endBeforeStart r = false →
       negativeCost r = false → recordInvalidScore lo hi r = 0.5)) := by
  constructor
  · intro h
    refine ⟨by simp [hasAllRequiredFields, h], ?_⟩
    simp only [recordInvalidScore, h]
    split_ifs <;> try norm_num
    all_goals simp_all
  · intro hu
    refine ⟨by simp [hasAllRequiredFields, hu], ?_⟩
    intro h1 h2 h3 h4 h5
    simp [recordInvalidScore, h1, h2, h3, h4, h5, strTruthy, hu, unrecognizedResult]

/-- C7 counterexample: a record with every required field except the result
scores completeness 0 (required-field gap) but accuracy 100 — no 0.5 penalty
is applied to the absent/empty result. -/
theorem absent_result_no_penalty_counterexample :
    strTruthy exNoResult.service_result = false ∧
    calculateCompleteness [exNoResult] = 0 ∧
    calculateAccuracy 0 100 [exNoResult] = 100 ∧
    recordInvalidScore 0 100 exNoResult = 0 := by
  refine ⟨by decide, ?_, ?_, by decide⟩
  · norm_num [calculateCompleteness, hasAllRequiredFields, exNoResult, strTruthy]
  · norm_num [calculateAccuracy, recordInvalidScore, exNoResult, strTruthy, wardOutOfRange,
      startDateOutOfWindow, endDateOutOfWindow, endBeforeStart, negativeCost, unrecognizedResult]

/-- Witness for C7 at an absent-result record and a literal-UNKNOWN record. -/
theorem absent_result_gap_but_no_penalty_witness :
    (hasAllRequiredFields exNoResult = false ∧ recordInvalidScore 0 100 exNoResult ≠ 0.5) ∧
    (hasAllRequiredFields exUnknown = false ∧ recordInvalidScore 0 100 exUnknown = 0.5) :=
  ⟨(absent_result_gap_but_no_penalty 0 100 exNoResult).1 (by decide),
   ⟨((absent_result_gap_but_no_penalty 0 100 exUnknown).2 (by decide)).1,
    ((absent_result_gap_but_no_penalty 0 100 exUnknown).2 (by decide)).2
      (by decide) (by decide) (by decide) (by decide) (by decide)⟩⟩

/-- The time-series entry's `costEfficiency` field in terms of its own
`passRate` and `avgCost` fields (line 572). -/
lemma mkTimeSeriesEntry_costEff (sorted : List Dash.MonthAgg) (i : Nat) (m : Dash.MonthAgg) :
    (Dash.mkTimeSeriesEntry sorted i m).costEfficiency =
      if (Dash.mkTimeSeriesEntry sorted i m).avgCost > 0 then
        (Dash.mkTimeSeriesEntry sorted i m).passRate /
          ((Dash.mkTimeSeriesEntry sorted i m).avgCost / 1000)
      else 0 := rfl

/-- The month formula `passRate / (avgCost/1000)` is 100 times the spec's
group formula `(passRate/100) / (avgCost/1000)`. -/
lemma month_eff_eq_100_spec (p a : ℚ) :
    (if a > 0 then p / (a / 1000) else 0) = 100 * specGroupCostEfficiency p a := by
  unfold specGroupCostEfficiency
  split_ifs with h
  · ring
  · norm_num

/-- The per-ward `costEfficiency` of line 745 agrees with the spec's group
formula evaluated at the ward's own `passRate` and `avgCost`. -/
lemma wardMetricsFor_costEff_spec (services : List ServiceRecord) (k : Int) :
    (Dash.wardMetricsFor services k).costEfficiency =
      specGroupCostEfficiency (Dash.wardMetricsFor services k).passRate
        (Dash.wardMetricsFor services k).avgCost := by
  unfold Dash.wardMetricsFor specGroupCostEfficiency
  dsimp only
  set n := (services.filter (fun s => s.ward == some k)).length with hn
  set pc := ((services.filter (fun s => s.ward == some k)).filter
      (fun s => s.service_result == some "PASS")).length with hpc
  set tc := (services.filter (fun s => s.ward == some k)).foldl
      (fun sum s => sum + s.estimated_cost.getD 0) 0 with htc
  by_cases h0 : 0 < n
  · have hnq : (0 : ℚ) < (n : ℚ) := by exact_mod_cast h0
    have hnne : ((n : ℚ)) ≠ 0 := ne_of_gt hnq
    by_cases h1 : 0 < tc
    · rw [if_pos ⟨h0, h1⟩, if_pos h0, if_pos h0, if_pos (div_pos h1 hnq)]
      have htcne : tc ≠ 0 := ne_of_gt h1
      field_simp
      ring
    · rw [if_neg (fun hc => h1 hc.2), if_pos h0, if_pos h0]
      have : ¬(0 < tc / (n : ℚ)) := by
        have h2 : tc ≤ 0 := le_of_not_lt h1
        have := div_nonpos_of_nonpos_of_nonneg h2 (le_of_lt hnq)
        linarith
      rw [if_neg this]
  · rw [if_neg (fun hc => h0 hc.1), if_neg h0, if_neg h0]
    norm_num

/-- The ward aggregate's `passRate` is never negative. -/
lemma wardMetricsFor_passRate_nonneg (services : List ServiceRecord) (k : Int) :
    0 ≤ (Dash.wardMetricsFor services k).passRate := by
  unfold Dash.wardMetricsFor
  dsimp only
  split_ifs with h
  · positivity
  · exact le_refl 0

/-- C9 (amended): the per-month `costEfficiency` equals 100 × the spec's
group efficiency formula `(passRate/100)/(avgCost/1000)`, while the per-ward
group `costEfficiency` equals that formula itself — so on identical
`(passRate, avgCost)` inputs the month value is 100 times the group value,
not equal to it. -/
theorem month_efficiency_is_100x_group_formula (monthKey : Int → String)
    (services : List ServiceRecord) :
    (∀ e ∈ Dash.calculateEnhancedTimeSeriesData monthKey services,
        e.costEfficiency = 100 * specGroupCostEfficiency e.passRate e.avgCost) ∧
    (∀ w ∈ (Dash.calculateWardAnalysis services).validWards,
        w.costEfficiency = specGroupCostEfficiency w.passRate w.avgCost) := by
  constructor
  · intro e he
    simp only [Dash.calculateEnhancedTimeSeriesData] at he
    obtain ⟨p, _, rfl⟩ := List.mem_map.mp he
    rw [mkTimeSeriesEntry_costEff]
    exact month_eff_eq_100_spec _ _
  · intro w hw
    rw [wardAnalysis_validWards_eq, List.mem_filter] at hw
    obtain ⟨hmem, _⟩ := hw
    rw [List.mem_map] at hmem
    obtain ⟨k, _, hwk⟩ := hmem
    subst hwk
    exact wardMetricsFor_costEff_spec services k

/-- C9 counterexample: one passing 1000-dollar record yields a month entry
with `(passRate, avgCost, costEfficiency) = (100, 1000, 100)` but a ward
group with `(passRate, avgCost, costEfficiency) = (100, 1000, 1)`: the two
efficiency functions disagree by a factor of 100 on identical inputs. -/
theorem month_vs_group_efficiency_counterexample :
    (Dash.calculateEnhancedTimeSeriesData (fun _ => "2020-01") [exPass]).map
        (fun e => (e.passRate, e.avgCost, e.costEfficiency)) = [(100, 1000, 100)] ∧
    (Dash.calculateWardAnalysis [exPass]).validWards.map
        (fun w => (w.passRate, w.avgCost, w.costEfficiency)) = [(100, 1000, 1)] := by
  constructor
  · norm_num [Dash.calculateEnhancedTimeSeriesData, Dash.groupByMonth, Dash.updateGroups,
      Dash.addToMonth, Dash.mkTimeSeriesEntry, exPass]
  · rw [wardAnalysis_validWards_eq]
    norm_num [List.range_succ, Dash.wardMetricsFor, exPass]

/-- Witness for C9 at the concrete month entry and ward group of `[exPass]`. -/
theorem month_efficiency_is_100x_group_witness :
    exMonthEntry.costEfficiency =
      100 * specGroupCostEfficiency exMonthEntry.passRate exMonthEntry.avgCost ∧
    exWard5.costEfficiency = specGroupCostEfficiency exWard5.passRate exWard5.avgCost :=
  And.intro
    ((month_efficiency_is_100x_group_formula (fun _ => "2020-01") [exPass]).1 exMonthEntry (by
      norm_num [Dash.calculateEnhancedTimeSeriesData, Dash.groupByMonth, Dash.updateGroups,
        Dash.addToMonth, Dash.mkTimeSeriesEntry, exPass, exMonthEntry]
      ))
    ((month_efficiency_is_100x_group_formula (fun _ => "2020-01") [exPass]).2 exWard5 (by
      rw [wardAnalysis_validWards_eq]
      norm_num [List.range_succ, Dash.wardMetricsFor, exPass, exWard5]
      decide
      ))

/-- Members of `assignRanks i l` are members of `l` with the rank replaced. -/
lemma mem_assignRanks (y : Dash.WardEfficiencyItem) :
    ∀ (i : Nat) (l : List Dash.WardEfficiencyItem), y ∈ Dash.assignRanks i l →
      ∃ x ∈ l, ∃ j, y = { x with rank := j } := by
  intro i l
  induction l generalizing i with
  | nil => intro h; simp [Dash.assignRanks] at h
  | cons x t ih =>
    intro h
    simp only [Dash.assignRanks] at h
    rcases List.mem_cons.mp h with h1 | h2
    · exact ⟨x, List.mem_cons_self x t, i, h1⟩
    · obtain ⟨x', hx', j, hj⟩ := ih (i + 1) h2
      exact ⟨x', List.mem_cons_of_mem _ hx', j, hj⟩

/-- `assignRanks` preserves the list length. -/
lemma assignRanks_length : ∀ (i : Nat) (l : List Dash.WardEfficiencyItem),
    (Dash.assignRanks i l).length = l.length
  | _, [] => rfl
  | i, _ :: t => by
    simp only [Dash.assignRanks, List.length_cons, assignRanks_length (i + 1) t]

/-- The ranks assigned by `assignRanks i` are `i, i+1, …` in list order. -/
lemma assignRanks_map_rank : ∀ (i : Nat) (l : List Dash.WardEfficiencyItem),
    (Dash.assignRanks i l).map (fun x => x.rank) = List.range' i l.length
  | _, [] => rfl
  | i, x :: t => by
    simp only [Dash.assignRanks, List.map_cons, List.length_cons, List.range'_succ,
      assignRanks_map_rank (i + 1) t]

/-- `assignRanks` does not change any field other than `rank`. -/
lemma assignRanks_map_of_rank_invariant {β : Type} (f : Dash.WardEfficiencyItem → β)
    (hf : ∀ x j, f { x with rank := j } = f x) :
    ∀ (i : Nat) (l : List Dash.WardEfficiencyItem),
      (Dash.assignRanks i l).map f = l.map f := by
  intro i l
  induction l generalizing i with
  | nil => rfl
  | cons x t ih =>
    simp only [Dash.assignRanks, List.map_cons, hf, ih (i + 1)]

/-- `assignRanks` preserves any pairwise relation that ignores ranks. -/
lemma pairwise_assignRanks {R : Dash.WardEfficiencyItem → Dash.WardEfficiencyItem → Prop}
    (hR : ∀ a b i j, R a b → R { a with rank := i } { b with rank := j }) :
    ∀ (i : Nat) (l : List Dash.WardEfficiencyItem), l.Pairwise R →
      (Dash.assignRanks i l).Pairwise R := by
  intro i l
  induction l generalizing i with
  | nil => intro _; simp [Dash.assignRanks]
  | cons x t ih =>
    intro hp
    rw [List.pairwise_cons] at hp
    simp only [Dash.assignRanks]
    rw [List.pairwise_cons]
    refine ⟨?_, ih (i + 1) hp.2⟩
    intro y hy
    obtain ⟨x', hx', j, rfl⟩ := mem_assignRanks y (i + 1) t hy
    exact hR x x' i j (hp.1 x' hx')

/-- Inserting an element whose ward precedes every ward of a descending-sorted
list preserves the combined order-and-stability invariant: later elements are
not above earlier ones, and ties keep the original (ward-ascending) order. -/
lemma pairwise_stable_orderedInsert (a : Dash.WardEfficiencyItem) :
    ∀ (m : List Dash.WardEfficiencyItem),
      m.Pairwise (fun x y => y.efficiencyScore ≤ x.efficiencyScore ∧
        (x.efficiencyScore = y.efficiencyScore → x.ward < y.ward)) →
      (∀ x ∈ m, a.ward < x.ward) →
      (m.orderedInsert (fun x y => y.efficiencyScore ≤ x.efficiencyScore) a).Pairwise
        (fun x y => y.efficiencyScore ≤ x.efficiencyScore ∧
          (x.efficiencyScore = y.efficiencyScore → x.ward < y.ward)) := by
  intro m
  induction m with
  | nil => intro _ _; simp [List.orderedInsert]
  | cons b m' ih =>
    intro hp ha
    rw [List.pairwise_cons] at hp
    by_cases hab : b.efficiencyScore ≤ a.efficiencyScore
    · simp only [List.orderedInsert, if_pos hab]
      rw [List.pairwise_cons]
      refine ⟨?_, by rw [List.pairwise_cons]; exact hp⟩
      intro y hy
      rcases List.mem_cons.mp hy with rfl | hy'
      · exact ⟨hab, fun _ => ha y (List.mem_cons_self y m')⟩
      · exact ⟨le_trans (hp.1 y hy').1 hab, fun _ => ha y (List.mem_cons_of_mem _ hy')⟩
    · have hlt : a.efficiencyScore < b.efficiencyScore := lt_of_not_le hab
      simp only [List.orderedInsert, if_neg hab]
      rw [List.pairwise_cons]
      refine ⟨?_, ih hp.2 (fun x hx => ha x (List.mem_cons_of_mem _ hx))⟩
      intro y hy
      rcases (List.mem_orderedInsert _).mp hy with rfl | hy'
      · exact ⟨le_of_lt hlt, fun heq => absurd heq (ne_of_gt hlt)⟩
      · exact hp.1 y hy'

/-- Insertion sort by non-strict descending score (the stable JavaScript sort)
on a ward-ascending list yields a list that is non-increasing in score with
ties in ward-ascending order. -/
lemma pairwise_stable_insertionSort (l : List Dash.WardEfficiencyItem)
    (hl : l.Pairwise (fun a b => a.ward < b.ward)) :
    (l.insertionSort (fun x y => y.efficiencyScore ≤ x.efficiencyScore)).Pairwise
      (fun x y => y.efficiencyScore ≤ x.efficiencyScore ∧
        (x.efficiencyScore = y.efficiencyScore → x.ward < y.ward)) := by
  induction l with
  | nil => simp
  | cons x t ih =>
    rw [List.pairwise_cons] at hl
    simp only [List.insertionSort]
    apply pairwise_stable_orderedInsert x _ (ih hl.2)
    intro y hy
    rw [List.mem_insertionSort] at hy
    exact hl.1 y hy

/-- The `validWards` list is ward-ascending. -/
lemma validWards_ward_pairwise (services : List ServiceRecord) :
    (Dash.calculateWardAnalysis services).validWards.Pairwise (fun a b => a.ward < b.ward) := by
  rw [wardAnalysis_validWards_eq]
  apply List.Pairwise.filter
  apply List.Pairwise.map (Dash.wardMetricsFor services)
    (S := fun a b => a.ward < b.ward) (fun a b h => h)
  apply List.Pairwise.map (fun (i : Nat) => (i : Int) + 1)
    (S := fun a b => a < b) (fun a b h => add_lt_add_right (by exact_mod_cast h) 1)
  exact List.pairwise_lt_range 25

/-- For wards with non-negative pass rate (all of them), the ranking item's
`efficiencyScore` is 100 times the spec's group formula. -/
lemma toEfficiencyItem_score_eq (w : Dash.WardMetrics) (hw : 0 ≤ w.passRate) :
    (Dash.toEfficiencyItem w).efficiencyScore =
      100 * specGroupCostEfficiency w.passRate w.avgCost := by
  unfold Dash.toEfficiencyItem specGroupCostEfficiency
  dsimp only
  by_cases ha : w.avgCost > 0
  · by_cases hp : w.passRate > 0
    · rw [if_pos ⟨hp, ha⟩, if_pos ha]
      ring
    · have hp0 : w.passRate = 0 := le_antisymm (le_of_not_lt hp) hw
      rw [if_neg (fun hc => hp hc.1), if_pos ha, hp0]
      norm_num
  · rw [if_neg (fun hc => ha hc.2), if_neg ha]
    norm_num

/-- Every element of `validWards` is the per-ward aggregate of some ward. -/
lemma mem_validWards_eq (services : List ServiceRecord) (w : Dash.WardMetrics)
    (hw : w ∈ (Dash.calculateWardAnalysis services).validWards) :
    ∃ k : Int, w = Dash.wardMetricsFor services k := by
  rw [wardAnalysis_validWards_eq, List.mem_filter] at hw
  obtain ⟨hmem, _⟩ := hw
  rw [List.mem_map] at hmem
  obtain ⟨k, _, hwk⟩ := hmem
  exact ⟨k, hwk.symm⟩

/-- C4: the ward efficiency ranking is a permutation of the valid-ward keys,
its rank fields are exactly 1..N in list order, it is non-increasing in the
sort score, ties keep the original ward-ascending order (stable sort), and
the sort score is 100 × the ward's `costEfficiency` — so the order is the
descending `costEfficiency` order. -/
theorem ward_efficiency_ranking_correct (services : List ServiceRecord) :
    List.Perm
      (((Dash.calculateWardAnalysis services).wardEfficiencyRanking).map (fun x => x.ward))
      (((Dash.calculateWardAnalysis services).validWards).map (fun w => w.ward)) ∧
    ((Dash.calculateWardAnalysis services).wardEfficiencyRanking).map (fun x => x.rank) =
      List.range' 1 ((Dash.calculateWardAnalysis services).wardEfficiencyRanking).length ∧
    ((Dash.calculateWardAnalysis services).wardEfficiencyRanking).Pairwise
      (fun a b => b.efficiencyScore ≤ a.efficiencyScore) ∧
    ((Dash.calculateWardAnalysis services).wardEfficiencyRanking).Pairwise
      (fun a b => a.efficiencyScore = b.efficiencyScore → a.ward < b.ward) ∧
    (∀ w ∈ (Dash.calculateWardAnalysis services).validWards,
      (Dash.toEfficiencyItem w).efficiencyScore = 100 * w.costEfficiency) := by
  have hpair := pairwise_stable_insertionSort
    (((Dash.calculateWardAnalysis services).validWards).map Dash.toEfficiencyItem)
    (List.Pairwise.map Dash.toEfficiencyItem (fun a b h => h)
      (validWards_ward_pairwise services))
  refine ⟨?_, ?_, ?_, ?_, ?_⟩
  · rw [wardAnalysis_ranking_eq,
      assignRanks_map_of_rank_invariant (fun x => x.ward) (fun x j => rfl) 1]
    have h2 := (List.perm_insertionSort
      (fun (a b : Dash.WardEfficiencyItem) => b.efficiencyScore ≤ a.efficiencyScore)
      (((Dash.calculateWardAnalysis services).validWards).map Dash.toEfficiencyItem)).map
      (fun x => x.ward)
    have h3 : ((((Dash.calculateWardAnalysis services).validWards).map
        Dash.toEfficiencyItem).map (fun x => x.ward)) =
        ((Dash.calculateWardAnalysis services).validWards).map (fun w => w.ward) := by
      rw [List.map_map]
      rfl
    rw [h3] at h2
    exact h2
  · rw [wardAnalysis_ranking_eq, assignRanks_map_rank, assignRanks_length]
  · rw [wardAnalysis_ranking_eq]
    exact pairwise_assignRanks (fun a b i j h => h) 1 _ (hpair.imp (fun h => h.1))
  · rw [wardAnalysis_ranking_eq]
    exact pairwise_assignRanks (fun a b i j h => h) 1 _ (hpair.imp (fun h => h.2))
  · intro w hw
    obtain ⟨k, rfl⟩ := mem_validWards_eq services w hw
    rw [wardMetricsFor_costEff_spec services k]
    exact toEfficiencyItem_score_eq _ (wardMetricsFor_passRate_nonneg services k)

/-- Witness for C4's membership hypothesis at the ward-5 aggregate. -/
theorem ward_efficiency_ranking_correct_witness :
    (Dash.toEfficiencyItem exWard5).efficiencyScore = 100 * exWard5.costEfficiency :=
  (ward_efficiency_ranking_correct [exPass]).2.2.2.2 exWard5 (by
    rw [wardAnalysis_validWards_eq]
    norm_num [List.range_succ, Dash.wardMetricsFor, exPass, exWard5]
    decide)

lemma getD_mem_of_lt {l : List ℚ} {n : Nat} {d : ℚ} (h : n < l.length) : l.getD n d ∈ l := by
  rw [List.getD_eq_getElem l d h]
  exact List.getElem_mem h

lemma sorted_headD_le {l : List ℚ} (hs : l.Sorted (fun a b => a ≤ b)) {c : ℚ} (hc : c ∈ l) :
    l.headD 0 ≤ c := by
  cases l with
  | nil => cases hc
  | cons a t =>
    rw [List.sorted_cons] at hs
    rcases List.mem_cons.mp hc with rfl | h
    · exact le_refl _
    · exact hs.1 c h

lemma sorted_le_getLastD :
    ∀ (l : List ℚ) (d : ℚ), l.Sorted (fun a b => a ≤ b) → ∀ c ∈ l, c ≤ l.getLastD d := by
  intro l
  induction l with
  | nil => intro d _ c hc; cases hc
  | cons a t ih =>
    intro d hs c hc
    rw [List.sorted_cons] at hs
    rw [List.getLastD_cons]
    rcases List.mem_cons.mp hc with rfl | h
    · cases t with
      | nil => simp
      | cons b t' =>
        have hb := ih c hs.2 b (List.mem_cons_self b t')
        exact le_trans (hs.1 b (List.mem_cons_self b t')) hb
    · exact ih a hs.2 c h

/-- Coverage of `[lo, hi]` by the `k` equal-width closed bins of the linear
loops: every value of the interval lands in at least one bin. -/
lemma linear_bin_coverage (lo hi c : ℚ) (k : Nat) (hk : 0 < k) (h1 : lo ≤ c) (h2 : c ≤ hi) :
    ∃ i < k, lo + (i : ℚ) * ((hi - lo) / (k : ℚ)) ≤ c ∧
      c ≤ (if i = k - 1 then hi else lo + ((i : ℚ) + 1) * ((hi - lo) / (k : ℚ))) := by
  have hkq : (0 : ℚ) < (k : ℚ) := by exact_mod_cast hk
  by_cases hdeg : hi - lo ≤ 0
  · have hhl : hi = lo := le_antisymm (by linarith) (by linarith)
    refine ⟨0, hk, ?_, ?_⟩
    · have hz : (hi - lo) / (k : ℚ) = 0 := by rw [hhl]; simp
      simpa [hz] using h1
    · split
      · exact h2
      · have hz : (hi - lo) / (k : ℚ) = 0 := by rw [hhl]; simp
        rw [hz]
        simpa [hhl] using h2
  · push_neg at hdeg
    have hs : (0 : ℚ) < (hi - lo) / (k : ℚ) := by positivity
    set s : ℚ := (hi - lo) / (k : ℚ) with hsdef
    set j : ℤ := ⌊(c - lo) / s⌋ with hj
    have hj0 : 0 ≤ j := Int.floor_nonneg.mpr (div_nonneg (by linarith) (le_of_lt hs))
    refine ⟨min (k - 1) j.toNat, lt_of_le_of_lt (min_le_left _ _) (Nat.sub_lt hk one_pos),
      ?_, ?_⟩
    · have h1' : ((min (k - 1) j.toNat : ℕ) : ℤ) ≤ j := by
        have := min_le_right (k - 1) j.toNat
        omega
      have hij : ((min (k - 1) j.toNat : ℕ) : ℚ) ≤ (c - lo) / s := by
        calc ((min (k - 1) j.toNat : ℕ) : ℚ) ≤ (j : ℚ) := by exact_mod_cast h1'
          _ ≤ (c - lo) / s := Int.floor_le _
      have hmul := mul_le_mul_of_nonneg_right hij (le_of_lt hs)
      rw [div_mul_cancel₀ _ (ne_of_gt hs)] at hmul
      linarith
    · split
      · exact h2
      · rename_i hlast
        have hij : min (k - 1) j.toNat = j.toNat := by
          rcases Nat.lt_or_ge j.toNat (k - 1) with hh | hh
          · exact min_eq_right (le_of_lt hh)
          · exact absurd (min_eq_left hh) hlast
        have hiq : ((min (k - 1) j.toNat : ℕ) : ℚ) = (j : ℚ) := by
          rw [hij]
          exact_mod_cast congrArg (Int.cast : ℤ → ℚ) (Int.toNat_of_nonneg hj0)
        have hlt : (c - lo) / s < (j : ℚ) + 1 := Int.lt_floor_add_one _
        have hmul := mul_lt_mul_of_pos_right hlt hs
        rw [div_mul_cancel₀ _ (ne_of_gt hs)] at hmul
        rw [hiq]
        linarith

/-- Every cost of `[lo, hi]` lies in an emitted equal-width bin. -/
lemma equalWidthBins_coverage (costs : List ℚ) (lo hi c : ℚ) (k : Nat) (hk : 0 < k)
    (hc : c ∈ costs) (h1 : lo ≤ c) (h2 : c ≤ hi) :
    ∃ bin ∈ Dash.equalWidthBins costs lo hi k, bin.min ≤ c ∧ c ≤ bin.max := by
  obtain ⟨i, hik, hlow, hhigh⟩ := linear_bin_coverage lo hi c k hk h1 h2
  have hcmem : c ∈ costs.filter (fun x =>
      decide (lo + (i : ℚ) * ((hi - lo) / (k : ℚ)) ≤ x) &&
      decide (x ≤ if i = k - 1 then hi else lo + ((i : ℚ) + 1) * ((hi - lo) / (k : ℚ)))) := by
    rw [List.mem_filter]
    exact ⟨hc, by simp [hlow, hhigh]⟩
  have hcnt : 0 < (costs.filter (fun x =>
      decide (lo + (i : ℚ) * ((hi - lo) / (k : ℚ)) ≤ x) &&
      decide (x ≤ if i = k - 1 then hi else lo + ((i : ℚ) + 1) * ((hi - lo) / (k : ℚ))))).length :=
    List.length_pos.mpr (List.ne_nil_of_mem hcmem)
  have hbin : ∃ b, Dash.mkLinearBin costs lo hi k i = some b ∧
      b.min = lo + (i : ℚ) * ((hi - lo) / (k : ℚ)) ∧
      b.max = (if i = k - 1 then hi else lo + ((i : ℚ) + 1) * ((hi - lo) / (k : ℚ))) := by
    simp only [Dash.mkLinearBin]
    rw [if_pos hcnt]
    exact ⟨_, rfl, rfl, rfl⟩
  obtain ⟨b, hb, hbmin, hbmax⟩ := hbin
  refine ⟨b, List.mem_filterMap.mpr ⟨i, List.mem_range.mpr hik, hb⟩, ?_, ?_⟩
  · rw [hbmin]; exact hlow
  · rw [hbmax]; exact hhigh

/-- Telescoping coverage of `(f 0, f k]` by the half-open pieces
`(f i, f (i+1)]` of a monotone chain. -/
lemma chain_coverage (f : ℕ → ℚ) :
    ∀ k : ℕ, 0 < k → (∀ i j : ℕ, i ≤ j → f i ≤ f j) →
      ∀ c : ℚ, f 0 < c → c ≤ f k → ∃ i < k, f i < c ∧ c ≤ f (i + 1) := by
  intro k
  induction k with
  | zero => intro h; omega
  | succ n ih =>
    intro _ hmono c h0 hk
    by_cases hn : f n < c
    · exact ⟨n, Nat.lt_succ_self n, hn, hk⟩
    · have hn' : c ≤ f n := le_of_not_lt hn
      have hnpos : 0 < n := by
        rcases Nat.eq_zero_or_pos n with rfl | h
        · exact absurd h0 (not_lt.mpr hn')
        · exact h
      obtain ⟨i, hi, h1, h2⟩ := ih hnpos hmono c h0 hn'
      exact ⟨i, Nat.lt_succ_of_lt hi, h1, h2⟩

/-- Every cost of `(q75, maxC]` lies in an emitted logarithmic bin, given
that `pow10` is monotone and inverts `log10` at the two endpoints. -/
lemma logWidthBins_coverage (log10 pow10 : ℚ → ℚ) (costs : List ℚ) (q75 maxC c : ℚ) (k : Nat)
    (hk : 0 < k) (hc : c ∈ costs)
    (hpow : ∀ a b : ℚ, a ≤ b → pow10 a ≤ pow10 b)
    (hrt75 : pow10 (log10 q75) = q75) (hrtmax : pow10 (log10 maxC) = maxC)
    (hlm : log10 q75 ≤ log10 maxC)
    (h1 : q75 < c) (h2 : c ≤ maxC) :
    ∃ bin ∈ Dash.logWidthBins log10 pow10 costs q75 maxC k, bin.min ≤ c ∧ c ≤ bin.max := by
  have hkq : (0 : ℚ) < (k : ℚ) := by exact_mod_cast hk
  have ht0 : 0 ≤ (log10 maxC - log10 q75) / (k : ℚ) :=
    div_nonneg (by linarith) (le_of_lt hkq)
  have hmono : ∀ i j : ℕ, i ≤ j →
      pow10 (log10 q75 + (i : ℚ) * ((log10 maxC - log10 q75) / (k : ℚ))) ≤
      pow10 (log10 q75 + (j : ℚ) * ((log10 maxC - log10 q75) / (k : ℚ))) := by
    intro i j hij
    apply hpow
    have hq : (i : ℚ) ≤ (j : ℚ) := by exact_mod_cast hij
    nlinarith
  have hf0 : pow10 (log10 q75 + ((0 : ℕ) : ℚ) * ((log10 maxC - log10 q75) / (k : ℚ))) = q75 := by
    push_cast
    rw [zero_mul, add_zero, hrt75]
  have hfk : pow10 (log10 q75 + ((k : ℕ) : ℚ) * ((log10 maxC - log10 q75) / (k : ℚ))) = maxC := by
    have harg : log10 q75 + ((k : ℕ) : ℚ) * ((log10 maxC - log10 q75) / (k : ℚ)) = log10 maxC := by
      field_simp
    rw [harg, hrtmax]
  obtain ⟨i, hik, hl, hh⟩ := chain_coverage
    (fun i : ℕ => pow10 (log10 q75 + (i : ℚ) * ((log10 maxC - log10 q75) / (k : ℚ)))) k hk hmono
    c (by simp only [hf0]; exact h1) (by simp only [hfk]; exact h2)
  have hbmin : (if i = 0 then q75
      else pow10 (log10 q75 + (i : ℚ) * ((log10 maxC - log10 q75) / (k : ℚ)))) =
      pow10 (log10 q75 + (i : ℚ) * ((log10 maxC - log10 q75) / (k : ℚ))) := by
    by_cases h0 : i = 0
    · rw [if_pos h0, h0]
      exact hf0.symm
    · rw [if_neg h0]
  have hbmax : pow10 (if i = k - 1 then log10 maxC
      else log10 q75 + ((i : ℚ) + 1) * ((log10 maxC - log10 q75) / (k : ℚ))) =
      pow10 (log10 q75 + ((i + 1 : ℕ) : ℚ) * ((log10 maxC - log10 q75) / (k : ℚ))) := by
    by_cases hlast : i = k - 1
    · rw [if_pos hlast]
      have hk1 : i + 1 = k := by omega
      rw [hk1]
      have harg : log10 q75 + ((k : ℕ) : ℚ) * ((log10 maxC - log10 q75) / (k : ℚ)) =
          log10 maxC := by field_simp
      rw [harg]
    · rw [if_neg hlast]
      congr 1
      push_cast
      ring
  have hcnt : 0 < (costs.filter (fun x =>
      decide ((if i = 0 then q75
        else pow10 (log10 q75 + (i : ℚ) * ((log10 maxC - log10 q75) / (k : ℚ)))) < x) &&
      decide (x ≤ pow10 (if i = k - 1 then log10 maxC
        else log10 q75 + ((i : ℚ) + 1) * ((log10 maxC - log10 q75) / (k : ℚ)))))).length := by
    apply List.length_pos.mpr
    apply List.ne_nil_of_mem (a := c)
    rw [List.mem_filter]
    refine ⟨hc, ?_⟩
    rw [hbmin, hbmax]
    simp only [Bool.and_eq_true, decide_eq_true_eq]
    exact ⟨hl, hh⟩
  have hbin : ∃ b, Dash.mkLogBin log10 pow10 costs q75 maxC k i = some b ∧
      b.min = (if i = 0 then q75
        else pow10 (log10 q75 + (i : ℚ) * ((log10 maxC - log10 q75) / (k : ℚ)))) ∧
      b.max = pow10 (if i = k - 1 then log10 maxC
        else log10 q75 + ((i : ℚ) + 1) * ((log10 maxC - log10 q75) / (k : ℚ))) := by
    simp only [Dash.mkLogBin]
    rw [if_pos hcnt]
    exact ⟨_, rfl, rfl, rfl⟩
  obtain ⟨b, hb, hbmin', hbmax'⟩ := hbin
  refine ⟨b, List.mem_filterMap.mpr ⟨i, List.mem_range.mpr hik, hb⟩, ?_, ?_⟩
  · rw [hbmin', hbmin]
    exact le_of_lt hl
  · rw [hbmax', hbmax]
    exact hh

/-- C3 (amended): for every record set, every positive-cost record lies in at
least one emitted bin (no gap within the observed value range), in both the
equal-width and the hybrid mode — provided the abstract `log10`/`pow10` are
monotone and mutually inverse on positives, as the real functions are.  Bins
are NOT disjoint: a cost on a shared boundary is counted in both neighbours,
so the claim's exactly-once coverage and count/percentage sums fail. -/
theorem cost_bins_cover_positive_costs (log10 pow10 : ℚ → ℚ)
    (hlog : ∀ a b : ℚ, 0 < a → a ≤ b → log10 a ≤ log10 b)
    (hpow : ∀ a b : ℚ, a ≤ b → pow10 a ≤ pow10 b)
    (hrt : ∀ x : ℚ, 0 < x → pow10 (log10 x) = x)
    (services : List ServiceRecord) (c : ℚ)
    (hc : c ∈ Dash.positiveCostsSorted services) :
    ∃ bin ∈ Dash.calculateCostDistribution log10 pow10 services,
      bin.min ≤ c ∧ c ≤ bin.max := by
  set costs := Dash.positiveCostsSorted services with hcosts
  have hsorted : costs.Sorted (fun a b => a ≤ b) := by
    rw [hcosts]
    unfold Dash.positiveCostsSorted
    exact List.sorted_insertionSort _ _
  have hposall : ∀ x ∈ costs, 0 < x := by
    intro x hx
    rw [hcosts] at hx
    unfold Dash.positiveCostsSorted at hx
    rw [List.mem_insertionSort, List.mem_filter] at hx
    simpa using hx.2
  have hne : costs.length ≠ 0 := by
    have := List.length_pos.mpr (List.ne_nil_of_mem hc)
    omega
  have hminle : costs.headD 0 ≤ c := sorted_headD_le hsorted hc
  have hlemax : c ≤ costs.getLastD 0 := sorted_le_getLastD costs 0 hsorted c hc
  have hbin6 : 6 ≤ Dash.binCount costs.length ∧ Dash.binCount costs.length ≤ 12 := by
    unfold Dash.binCount
    exact ⟨le_min (by norm_num) (Nat.le_max_left _ _), min_le_left _ _⟩
  simp only [Dash.calculateCostDistribution]
  rw [← hcosts, if_neg hne]
  split_ifs with hhyb hempty
  · -- hybrid mode, no record above the 75th percentile
    have hcq75 : c ≤ costs.getD (costs.length * 3 / 4) 0 := by
      rw [List.isEmpty_iff] at hempty
      have := List.filter_eq_nil_iff.mp hempty c hc
      simpa using this
    exact equalWidthBins_coverage costs (costs.headD 0) (costs.getD (costs.length * 3 / 4) 0) c
      ((7 * Dash.binCount costs.length + 9) / 10) (by omega) hc hminle hcq75
  · -- hybrid mode with a populated upper quartile
    by_cases hcq : c ≤ costs.getD (costs.length * 3 / 4) 0
    · obtain ⟨bin, hmem, hb1, hb2⟩ := equalWidthBins_coverage costs (costs.headD 0)
        (costs.getD (costs.length * 3 / 4) 0) c
        ((7 * Dash.binCount costs.length + 9) / 10) (by omega) hc hminle hcq
      exact ⟨bin, List.mem_append_left _ hmem, hb1, hb2⟩
    · push_neg at hcq
      have hq75mem : costs.getD (costs.length * 3 / 4) 0 ∈ costs :=
        getD_mem_of_lt (by omega)
      have hq75pos : 0 < costs.getD (costs.length * 3 / 4) 0 := hposall _ hq75mem
      have hq75lemax : costs.getD (costs.length * 3 / 4) 0 ≤ costs.getLastD 0 :=
        sorted_le_getLastD costs 0 hsorted _ hq75mem
      have hmaxpos : 0 < costs.getLastD 0 := lt_of_lt_of_le (hposall c hc) hlemax
      have hlowlen : (Dash.equalWidthBins costs (costs.headD 0)
          (costs.getD (costs.length * 3 / 4) 0)
          ((7 * Dash.binCount costs.length + 9) / 10)).length ≤
          (7 * Dash.binCount costs.length + 9) / 10 := by
        unfold Dash.equalWidthBins
        calc ((List.range ((7 * Dash.binCount costs.length + 9) / 10)).filterMap _).length
            ≤ (List.range ((7 * Dash.binCount costs.length + 9) / 10)).length :=
              List.length_filterMap_le _ _
          _ = (7 * Dash.binCount costs.length + 9) / 10 := List.length_range _
      obtain ⟨bin, hmem, hb1, hb2⟩ := logWidthBins_coverage log10 pow10 costs
        (costs.getD (costs.length * 3 / 4) 0) (costs.getLastD 0) c
        (Dash.binCount costs.length - (Dash.equalWidthBins costs (costs.headD 0)
          (costs.getD (costs.length * 3 / 4) 0)
          ((7 * Dash.binCount costs.length + 9) / 10)).length)
        (by omega) hc hpow (hrt _ hq75pos) (hrt _ hmaxpos)
        (hlog _ _ hq75pos hq75lemax) hcq hlemax
      exact ⟨bin, List.mem_append_right _ hmem, hb1, hb2⟩
  · -- equal-width mode
    exact equalWidthBins_coverage costs (costs.headD 0) (costs.getLastD 0) c
      (Dash.binCount costs.length) (by omega) hc hminle hlemax

/-- C3 counterexample: a single record with cost 5 yields SIX identical bins
`[5, 5]`, each counting the one record, so the claimed exactly-once coverage
fails: the `count` fields sum to 6 (not 1) and the `percentage` fields sum
to 600 (not ~100). -/
theorem cost_bins_overlap_counterexample :
    Dash.calculateCostDistribution id id [exCost5] =
      List.replicate 6 { min := 5, max := 5, count := 1, percentage := 100 } ∧
    (([exCost5].map (fun s => s.estimated_cost.getD 0)).filter
      (fun c => decide (0 < c))).length = 1 ∧
    ((Dash.calculateCostDistribution id id [exCost5]).map (fun b => b.count)).sum = 6 ∧
    ((Dash.calculateCostDistribution id id [exCost5]).map (fun b => b.percentage)).sum = 600 := by
  have h : Dash.calculateCostDistribution id id [exCost5] =
      List.replicate 6 { min := 5, max := 5, count := 1, percentage := 100 } := by
    simp [Dash.calculateCostDistribution, Dash.positiveCostsSorted, Dash.equalWidthBins,
      Dash.mkLinearBin, Dash.binCount, Dash.ceilPoint8Sqrt, exCost5, List.range_succ,
      List.replicate]
  refine ⟨h, by decide, ?_, ?_⟩
  · rw [h]
    decide
  · rw [h]
    norm_num [List.replicate]

/-- Witness for C3 with identity transforms (hypotheses hold trivially) on
three costs 2, 8, 14 (equal-width mode), covering the cost 8. -/
theorem cost_bins_cover_positive_costs_witness :
    ∃ bin ∈ Dash.calculateCostDistribution id id [exCost2, exCost8, exCost14],
      bin.min ≤ 8 ∧ (8 : ℚ) ≤ bin.max :=
  cost_bins_cover_positive_costs id id (fun _ _ _ h => h) (fun _ _ h => h) (fun _ _ => rfl)
    [exCost2, exCost8, exCost14] 8 (by decide)
